import Mathlib

/-!
# skift kernel: Intel E1000 network driver (`src/kernel/devices/E1000.cpp`)

A shallow embedding of the driver's global state and of its functions, followed by
theorems about ring cursors, descriptor ownership, the receive and transmit data
path, MAC address discovery and EEPROM detection.

Conventions of the embedding

* The module-level statics of `E1000.cpp` are the fields of `Driver`, under their
  source names.  The device side (what the card has been told and what it answers)
  is the field `dev`; the byte-addressed memory that `memcpy` works on is `memory`.
* Machine integers are natural numbers.  A narrowing conversion that the source
  performs is written out (`u8`, `u16`, `u32`).  The ring cursors are C `int`s that
  only ever hold non-negative values, so they are natural numbers here, and such a
  value converts to `uint32_t` unchanged.
* Arrays are lists, read with `List.getD` and written with `List.set`, so an index
  outside the array reads a default element and writes nothing.  The descriptor arrays
  and the arrays of buffer handles are objects of their own, apart from the byte memory
  that holds the packet buffers.
* The card answers the reads of the driver in program order: `Device.rd k` is the answer
  to read number `k`, whatever register is read, and `Device.log` records every register
  access the card has seen.
* The header `E1000.h` (register offsets, flag constants, ring sizes, descriptor
  layouts) is not among the sources: its constants are the fields of `Config`.
-/

namespace E1000

/-! ## Machine integers -/

/-- Conversion to `uint8_t`. -/
def u8 (n : Nat) : Nat := n % 2 ^ 8

/-- Conversion to `uint16_t`. -/
def u16 (n : Nat) : Nat := n % 2 ^ 16

/-- Conversion to `uint32_t`. -/
def u32 (n : Nat) : Nat := n % 2 ^ 32

/-! ## Data model -/

/-- Modelled from the spec: `MemoryRange` (kernel/memory/MemoryRange.h) is missing from the
sources; a range is a base address and a size, and it is empty when its size is zero. -/
structure MemoryRange where
  base : Nat
  size : Nat
deriving DecidableEq, Repr

/-- The test `MemoryRange::empty()`. -/
def MemoryRange.empty (r : MemoryRange) : Bool := r.size == 0

/-- Modelled from the spec: `MacAddress` is missing from the sources; section 3 describes it as
a 6-byte value, accessed as `bytes[0..5]` in `e1000_mac_address_read`. -/
structure MacAddress where
  bytes : List Nat
deriving DecidableEq, Repr

/-- Modelled from the spec: the layout `E1000RXDescriptor` (kernel/devices/E1000.h) is missing
from the sources; section 3 lists a physical buffer address, a byte length and a status bit
field, and these are the three fields the driver touches. -/
structure E1000RXDescriptor where
  address : Nat
  length : Nat
  status : Nat
deriving DecidableEq, Repr, Inhabited

/-- Modelled from the spec: the layout `E1000TXDescriptor` (kernel/devices/E1000.h) is missing
from the sources; section 3 lists a physical buffer address, a byte length and a status/command
bit field, in a fixed-size record defined by the hardware.  In that record (16 bytes, the legacy
transmit descriptor of the 8254x family) the length field is 16 bits wide: a store into it
narrows the value with `u16`. -/
structure E1000TXDescriptor where
  address : Nat
  length : Nat
  command : Nat
  status : Nat
deriving DecidableEq, Repr, Inhabited

/-- The constants of `E1000.h` and the address translation of the kernel page directory, all
taken as parameters. -/
structure Config where
  E1000_NUM_RX_DESC : Nat
  E1000_NUM_TX_DESC : Nat
  sizeof_E1000RXDescriptor : Nat
  sizeof_E1000TXDescriptor : Nat
  E1000_REG_CONTROL : Nat
  E1000_REG_STATUS : Nat
  E1000_REG_EEPROM : Nat
  E1000_REG_IMASK : Nat
  E1000_REG_MAC_LOW : Nat
  E1000_REG_MAC_HIGHT : Nat
  E1000_REG_RX_CONTROL : Nat
  E1000_REG_RX_LOW : Nat
  E1000_REG_RX_HIGH : Nat
  E1000_REG_RX_LENGTH : Nat
  E1000_REG_RX_HEAD : Nat
  E1000_REG_RX_TAIL : Nat
  E1000_REG_TX_CONTROL : Nat
  E1000_REG_TX_LOW : Nat
  E1000_REG_TX_HIGH : Nat
  E1000_REG_TX_LENGTH : Nat
  E1000_REG_TX_HEAD : Nat
  E1000_REG_TX_TAIL : Nat
  E1000_CTL_START_LINK : Nat
  RCTL_EN : Nat
  RCTL_SBP : Nat
  RCTL_UPE : Nat
  RCTL_MPE : Nat
  RCTL_LBM_NONE : Nat
  RTCL_RDMTS_HALF : Nat
  RCTL_BAM : Nat
  RCTL_SECRC : Nat
  RCTL_BSIZE_8192 : Nat
  TCTL_EN : Nat
  TCTL_PSP : Nat
  TCTL_CT_SHIFT : Nat
  TCTL_COLD_SHIFT : Nat
  TCTL_RTLC : Nat
  CMD_EOP : Nat
  CMD_IFCS : Nat
  CMD_RS : Nat
  virtual_to_physical : Nat → Nat

/-- One access to a device register, as the card sees it: the register offset and the value
written or returned. -/
inductive RegAccess where
  | write (offset value : Nat)
  | read (offset value : Nat)
deriving DecidableEq, Repr

/-- The card as seen from the driver: the index latch of the port window, the register
accesses so far in program order, and the answers the card gives to the reads (`rd k` is the
value returned by read number `k`, counted from zero; `nreads` reads have been made). -/
structure Device where
  ioaddr : Nat
  log : List RegAccess
  rd : Nat → Nat
  nreads : Nat

/-- The module-level state of `E1000.cpp` (lines 18 to 31), the byte-addressed memory, and
the card. -/
structure Driver where
  _mmio_range : MemoryRange
  _pio_base : Nat
  _has_eeprom : Bool
  _mac_address : MacAddress
  _current_rx_descriptors : Nat
  _rx_descriptors_range : MemoryRange
  _rx_descriptors : List E1000RXDescriptor
  _rx_buffers : List Nat
  _current_tx_descriptors : Nat
  _tx_descriptors_range : MemoryRange
  _tx_descriptors : List E1000TXDescriptor
  _tx_buffers : List Nat
  memory : Nat → Nat
  dev : Device

/-- What the external allocators hand to `e1000_initialize_rx`: the range returned by
`physical_alloc`, the contents of the freshly mapped descriptor memory, and the address that
the `i`-th call of `memory_alloc` stores. -/
structure RxResources where
  range : MemoryRange
  fresh : Nat → E1000RXDescriptor
  buffer : Nat → Nat

/-- What the external allocators hand to `e1000_initialize_tx`. -/
structure TxResources where
  range : MemoryRange
  fresh : Nat → E1000TXDescriptor
  buffer : Nat → Nat

/-! ## Register access layer (lines 33 to 57) -/

/-- Modelled from the spec: `mmio_write32` (kernel/devices/MMIO.h) is missing from the sources;
by section 4.1 a store at `base + offset` of the register window reaches the register at
`offset`. -/
def mmio_write32 (d : Driver) (addr value : Nat) : Driver :=
  { d with dev := { d.dev with log := d.dev.log ++ [RegAccess.write (addr - d._mmio_range.base) value] } }

/-- Modelled from the spec: `mmio_read32` (kernel/devices/MMIO.h) is missing from the sources;
a load at `base + offset` returns the card's next answer, a 32-bit value. -/
def mmio_read32 (d : Driver) (addr : Nat) : Nat × Driver :=
  let v := u32 (d.dev.rd d.dev.nreads)
  (v, { d with dev := { d.dev with
          log := d.dev.log ++ [RegAccess.read (addr - d._mmio_range.base) v],
          nreads := d.dev.nreads + 1 } })

/-- Modelled from the spec: `out32` (arch/x86/x86.h) is missing from the sources; by section 4.1
the port at the base is the index port and the port four bytes later is the data port. -/
def out32 (d : Driver) (port value : Nat) : Driver :=
  if port = d._pio_base then
    { d with dev := { d.dev with ioaddr := value } }
  else if port = d._pio_base + 4 then
    { d with dev := { d.dev with log := d.dev.log ++ [RegAccess.write d.dev.ioaddr value] } }
  else
    d

/-- Modelled from the spec: `in32` (arch/x86/x86.h) is missing from the sources; reading the
data port returns the card's next answer for the register selected by the index port. -/
def in32 (d : Driver) (port : Nat) : Nat × Driver :=
  if port = d._pio_base + 4 then
    let v := u32 (d.dev.rd d.dev.nreads)
    (v, { d with dev := { d.dev with
            log := d.dev.log ++ [RegAccess.read d.dev.ioaddr v],
            nreads := d.dev.nreads + 1 } })
  else if port = d._pio_base then
    (d.dev.ioaddr, d)
  else
    (0, d)

/-- The function `e1000_write` (lines 33 to 44).  Every caller passes a value that already
fits 32 bits. -/
def e1000_write (d : Driver) (offset value : Nat) : Driver :=
  if !d._mmio_range.empty then
    mmio_write32 d (d._mmio_range.base + offset) value
  else
    out32 (out32 d d._pio_base offset) (d._pio_base + 4) value

/-- The function `e1000_read` (lines 46 to 57). -/
def e1000_read (d : Driver) (offset : Nat) : Nat × Driver :=
  if !d._mmio_range.empty then
    mmio_read32 d (d._mmio_range.base + offset)
  else
    in32 (out32 d d._pio_base offset) (d._pio_base + 4)

/-! ## EEPROM (lines 61 to 96) -/

/-- The loop of `e1000_eeprom_detect` (lines 67 to 73), by the number of iterations that
`i < 1000` still allows. -/
def e1000_eeprom_detect_loop (cfg : Config) : Nat → Bool → Driver → Bool × Driver
  | 0, exists_, d => (exists_, d)
  | n + 1, exists_, d =>
    if !exists_ then
      let r := e1000_read d cfg.E1000_REG_EEPROM
      let exists1 := if r.1 &&& 0x10 ≠ 0 then true else exists_
      e1000_eeprom_detect_loop cfg n exists1 r.2
    else
      (exists_, d)

/-- The function `e1000_eeprom_detect` (lines 61 to 76). -/
def e1000_eeprom_detect (cfg : Config) (d : Driver) : Bool × Driver :=
  let d1 := e1000_write d cfg.E1000_REG_EEPROM 0x1
  e1000_eeprom_detect_loop cfg 1000 false d1

/-- The busy-wait `while (!((tmp = e1000_read(E1000_REG_EEPROM)) & mask));` of
`e1000_eeprom_read`.  The loop has no bound in the source: `fuel` bounds the number of polls,
and `none` means the done bit did not show within them. -/
def e1000_eeprom_poll (cfg : Config) (mask : Nat) : Nat → Driver → Option (Nat × Driver)
  | 0, _ => none
  | fuel + 1, d =>
    let r := e1000_read d cfg.E1000_REG_EEPROM
    if r.1 &&& mask ≠ 0 then some r else e1000_eeprom_poll cfg mask fuel r.2

/-- The function `e1000_eeprom_read` (lines 78 to 96). -/
def e1000_eeprom_read (cfg : Config) (fuel : Nat) (d : Driver) (address : Nat) :
    Option (Nat × Driver) :=
  if d._has_eeprom then
    let d1 := e1000_write d cfg.E1000_REG_EEPROM (u32 (1 ||| u32 (u32 address <<< 8)))
    match e1000_eeprom_poll cfg (1 <<< 4) fuel d1 with
    | none => none
    | some (tmp, d2) => some (u16 ((tmp >>> 16) &&& 0xFFFF), d2)
  else
    let d1 := e1000_write d cfg.E1000_REG_EEPROM (u32 (1 ||| u32 (u32 address <<< 2)))
    match e1000_eeprom_poll cfg (1 <<< 1) fuel d1 with
    | none => none
    | some (tmp, d2) => some (u16 ((tmp >>> 16) &&& 0xFFFF), d2)

/-! ## MAC address (lines 100 to 132) -/

/-- The function `e1000_mac_address_read` (lines 100 to 132).  `temp` is a `uint32_t` holding
the `uint16_t` returned by `e1000_eeprom_read`; the bytes are `uint8_t`. -/
def e1000_mac_address_read (cfg : Config) (fuel : Nat) (d : Driver) :
    Option (MacAddress × Driver) :=
  let address : MacAddress := ⟨[0, 0, 0, 0, 0, 0]⟩
  if d._has_eeprom then
    match e1000_eeprom_read cfg fuel d 0 with
    | none => none
    | some (temp0, d1) =>
      let address : MacAddress := ⟨address.bytes.set 0 (u8 (temp0 &&& 0xff))⟩
      let address : MacAddress := ⟨address.bytes.set 1 (u8 (temp0 >>> 8))⟩
      match e1000_eeprom_read cfg fuel d1 1 with
      | none => none
      | some (temp1, d2) =>
        let address : MacAddress := ⟨address.bytes.set 2 (u8 (temp1 &&& 0xff))⟩
        let address : MacAddress := ⟨address.bytes.set 3 (u8 (temp1 >>> 8))⟩
        match e1000_eeprom_read cfg fuel d2 2 with
        | none => none
        | some (temp2, d3) =>
          let address : MacAddress := ⟨address.bytes.set 4 (u8 (temp2 &&& 0xff))⟩
          let address : MacAddress := ⟨address.bytes.set 5 (u8 (temp2 >>> 8))⟩
          some (address, d3)
  else
    let r1 := e1000_read d cfg.E1000_REG_MAC_LOW
    let mac_low := r1.1
    let r2 := e1000_read r1.2 cfg.E1000_REG_MAC_HIGHT
    let mac_hight := r2.1
    let address : MacAddress := ⟨address.bytes.set 0 (u8 (mac_low &&& 0xff))⟩
    let address : MacAddress := ⟨address.bytes.set 1 (u8 ((mac_low >>> 8) &&& 0xff))⟩
    let address : MacAddress := ⟨address.bytes.set 2 (u8 ((mac_low >>> 16) &&& 0xff))⟩
    let address : MacAddress := ⟨address.bytes.set 3 (u8 ((mac_low >>> 24) &&& 0xff))⟩
    let address : MacAddress := ⟨address.bytes.set 4 (u8 (mac_hight &&& 0xff))⟩
    let address : MacAddress := ⟨address.bytes.set 5 (u8 ((mac_hight >>> 8) &&& 0xff))⟩
    some (address, r2.2)

/-! ## Ring initialisation (lines 136 to 187) -/

/-- The body of the loop of `e1000_initialize_rx` (lines 144 to 147) for index `i`. -/
def e1000_initialize_rx_body (cfg : Config) (res : RxResources) (d : Driver) (i : Nat) : Driver :=
  let d := { d with _rx_buffers := d._rx_buffers.set i (res.buffer i) }
  let desc := d._rx_descriptors.getD i default
  let desc := { desc with address := cfg.virtual_to_physical (d._rx_buffers.getD i 0) }
  let d := { d with _rx_descriptors := d._rx_descriptors.set i desc }
  let desc := d._rx_descriptors.getD i default
  let desc := { desc with status := 0x1 }
  { d with _rx_descriptors := d._rx_descriptors.set i desc }

/-- The function `e1000_initialize_rx` (lines 136 to 157).  `calloc` gives a zeroed array of
buffer pointers; the descriptor array starts with whatever the fresh mapping holds. -/
def e1000_initialize_rx (cfg : Config) (res : RxResources) (d : Driver) : Driver :=
  let d := { d with _rx_descriptors_range := res.range }
  let d := { d with _rx_buffers := List.replicate cfg.E1000_NUM_RX_DESC 0 }
  let d := { d with _rx_descriptors := (List.range cfg.E1000_NUM_RX_DESC).map res.fresh }
  let d := (List.range cfg.E1000_NUM_RX_DESC).foldl (e1000_initialize_rx_body cfg res) d
  let d := e1000_write d cfg.E1000_REG_RX_LOW d._rx_descriptors_range.base
  let d := e1000_write d cfg.E1000_REG_RX_HIGH 0
  let d := e1000_write d cfg.E1000_REG_RX_LENGTH
             (cfg.E1000_NUM_RX_DESC * cfg.sizeof_E1000RXDescriptor)
  let d := e1000_write d cfg.E1000_REG_RX_HEAD 0
  let d := e1000_write d cfg.E1000_REG_RX_TAIL (cfg.E1000_NUM_RX_DESC - 1)
  e1000_write d cfg.E1000_REG_RX_CONTROL
    (cfg.RCTL_EN ||| cfg.RCTL_SBP ||| cfg.RCTL_UPE ||| cfg.RCTL_MPE ||| cfg.RCTL_LBM_NONE |||
      cfg.RTCL_RDMTS_HALF ||| cfg.RCTL_BAM ||| cfg.RCTL_SECRC ||| cfg.RCTL_BSIZE_8192)

/-- The body of the loop of `e1000_initialize_tx` (lines 167 to 170) for index `i`. -/
def e1000_initialize_tx_body (cfg : Config) (res : TxResources) (d : Driver) (i : Nat) : Driver :=
  let d := { d with _tx_buffers := d._tx_buffers.set i (res.buffer i) }
  let desc := d._tx_descriptors.getD i default
  let desc := { desc with address := cfg.virtual_to_physical (d._tx_buffers.getD i 0) }
  let d := { d with _tx_descriptors := d._tx_descriptors.set i desc }
  let desc := d._tx_descriptors.getD i default
  let desc := { desc with status := 0xff }
  { d with _tx_descriptors := d._tx_descriptors.set i desc }

/-- The function `e1000_initialize_tx` (lines 159 to 180). -/
def e1000_initialize_tx (cfg : Config) (res : TxResources) (d : Driver) : Driver :=
  let d := { d with _tx_descriptors_range := res.range }
  let d := { d with _tx_buffers := List.replicate cfg.E1000_NUM_TX_DESC 0 }
  let d := { d with _tx_descriptors := (List.range cfg.E1000_NUM_TX_DESC).map res.fresh }
  let d := (List.range cfg.E1000_NUM_TX_DESC).foldl (e1000_initialize_tx_body cfg res) d
  let d := e1000_write d cfg.E1000_REG_TX_LOW d._tx_descriptors_range.base
  let d := e1000_write d cfg.E1000_REG_TX_HIGH 0
  let d := e1000_write d cfg.E1000_REG_TX_LENGTH
             (cfg.E1000_NUM_TX_DESC * cfg.sizeof_E1000TXDescriptor)
  let d := e1000_write d cfg.E1000_REG_TX_HEAD 0
  let d := e1000_write d cfg.E1000_REG_TX_TAIL (cfg.E1000_NUM_TX_DESC - 1)
  e1000_write d cfg.E1000_REG_TX_CONTROL
    (cfg.TCTL_EN ||| cfg.TCTL_PSP ||| (15 <<< cfg.TCTL_CT_SHIFT) |||
      (64 <<< cfg.TCTL_COLD_SHIFT) ||| cfg.TCTL_RTLC)

/-- The function `e1000_enable_interrupt` (lines 182 to 187); `0xff & ~4` is `0xfb`. -/
def e1000_enable_interrupt (cfg : Config) (d : Driver) : Driver :=
  let d := e1000_write d cfg.E1000_REG_IMASK 0x1F6DC
  let d := e1000_write d cfg.E1000_REG_IMASK 0xfb
  (e1000_read d 0xc0).2

/-! ## Send and receive (lines 191 to 222) -/

/-- The C library `memcpy` on the byte-addressed memory: the `n` bytes at `dst` become the `n`
bytes that were at `src`; every other byte keeps its value. -/
def memcpy (mem : Nat → Nat) (dst src n : Nat) : Nat → Nat :=
  fun a => if dst ≤ a ∧ a < dst + n then mem (src + (a - dst)) else mem a

/-- The function `e1000_receive_packet` (lines 191 to 207).  The argument `size` is unused, as
in the source; `packet_size` holds the descriptor's length field; `old_cur` is a `uint16_t`. -/
def e1000_receive_packet (cfg : Config) (d : Driver) (buffer size : Nat) : Nat × Driver :=
  let _ := size
  let packet_buffer := d._rx_buffers.getD d._current_rx_descriptors 0
  let packet_size := (d._rx_descriptors.getD d._current_rx_descriptors default).length
  let d := { d with memory := memcpy d.memory buffer packet_buffer packet_size }
  let desc := d._rx_descriptors.getD d._current_rx_descriptors default
  let desc := { desc with status := 0 }
  let d := { d with _rx_descriptors := d._rx_descriptors.set d._current_rx_descriptors desc }
  let old_cur := u16 d._current_rx_descriptors
  let d := { d with _current_rx_descriptors :=
               (d._current_rx_descriptors + 1) % cfg.E1000_NUM_RX_DESC }
  let d := e1000_write d cfg.E1000_REG_RX_TAIL old_cur
  (packet_size, d)

/-- The function `e1000_send_packet` (lines 209 to 222).  Line 214 stores the `size_t` `size`
into the 16-bit length field of the descriptor, which narrows it. -/
def e1000_send_packet (cfg : Config) (d : Driver) (buffer size : Nat) : Nat × Driver :=
  let dst := d._tx_buffers.getD d._current_tx_descriptors 0
  let d := { d with memory := memcpy d.memory dst buffer size }
  let desc := d._tx_descriptors.getD d._current_tx_descriptors default
  let desc := { desc with length := u16 size }
  let d := { d with _tx_descriptors := d._tx_descriptors.set d._current_tx_descriptors desc }
  let desc := d._tx_descriptors.getD d._current_tx_descriptors default
  let desc := { desc with command := cfg.CMD_EOP ||| cfg.CMD_IFCS ||| cfg.CMD_RS }
  let d := { d with _tx_descriptors := d._tx_descriptors.set d._current_tx_descriptors desc }
  let desc := d._tx_descriptors.getD d._current_tx_descriptors default
  let desc := { desc with status := 0 }
  let d := { d with _tx_descriptors := d._tx_descriptors.set d._current_tx_descriptors desc }
  let d := { d with _current_tx_descriptors :=
               (d._current_tx_descriptors + 1) % cfg.E1000_NUM_TX_DESC }
  let d := e1000_write d cfg.E1000_REG_TX_TAIL d._current_tx_descriptors
  (size, d)

/-! ## Interrupt handler and device node (lines 226 to 303) -/

/-- The function `e1000_interrupt_handler` (lines 226 to 238). -/
def e1000_interrupt_handler (cfg : Config) (d : Driver) : Driver :=
  let d := e1000_write d cfg.E1000_REG_IMASK 0x0
  let r := e1000_read d cfg.E1000_REG_STATUS
  let status := r.1
  if status &&& 4 ≠ 0 then
    let f := e1000_read r.2 cfg.E1000_REG_CONTROL
    e1000_write f.2 cfg.E1000_REG_CONTROL (f.1 ||| cfg.E1000_CTL_START_LINK)
  else
    r.2

/-- The method `Net::can_write` (lines 270 to 275). -/
def Net.can_write (d : Driver) : Bool :=
  (d._tx_descriptors.getD d._current_tx_descriptors default).status &&& 1 != 0

/-- The method `Net::can_read` (lines 277 to 282). -/
def Net.can_read (d : Driver) : Bool :=
  (d._rx_descriptors.getD d._current_rx_descriptors default).status &&& 0x1 != 0

/-- The method `Net::read` (lines 284 to 292); logging and the hex dump leave the state alone. -/
def Net.read (cfg : Config) (d : Driver) (buffer size : Nat) : Nat × Driver :=
  e1000_receive_packet cfg d buffer size

/-- The method `Net::write` (lines 294 to 302). -/
def Net.write (cfg : Config) (d : Driver) (buffer size : Nat) : Nat × Driver :=
  e1000_send_packet cfg d buffer size

/-- Modelled from the spec: the type `Result` (an ABI header) is missing from the sources;
these are the two values that `net_iocall` returns, "success" and, by section 7,
"inappropriate call for this device". -/
inductive Result where
  | SUCCESS
  | ERR_INAPPROPRIATE_CALL_FOR_DEVICE
deriving DecidableEq, Repr

/-- Modelled from the spec: the argument block `IOCallNetworkSateAgs` (an ABI header) is missing
from the sources; by section 4.6 the "get state" query returns the MAC address, and `net_iocall`
and `netctl.cpp` use its one field `mac_address`. -/
structure IOCallNetworkSateAgs where
  mac_address : MacAddress
deriving DecidableEq, Repr

/-- The function `net_iocall` (lines 240 to 255).  A request is the number of its `IOCall`
enumerator; the number of `IOCALL_NETWORK_GET_STATE`, from a missing ABI header, is a
parameter.  The result is the returned code, the caller's argument block after the call, and
the driver state after the call. -/
def net_iocall (IOCALL_NETWORK_GET_STATE : Nat) (d : Driver) (iocall : Nat)
    (args : IOCallNetworkSateAgs) : Result × IOCallNetworkSateAgs × Driver :=
  if iocall = IOCALL_NETWORK_GET_STATE then
    let state := args
    let state := { state with mac_address := d._mac_address }
    (Result.SUCCESS, state, d)
  else
    (Result.ERR_INAPPROPRIATE_CALL_FOR_DEVICE, args, d)

/-! ## The card's side of the rings -/

/-- Bytes stored by a DMA write: `data` lands at `addr`, every other byte keeps its value. -/
def store_bytes (mem : Nat → Nat) (addr : Nat) (data : List Nat) : Nat → Nat :=
  fun a => if addr ≤ a ∧ a < addr + data.length then data.getD (a - addr) 0 else mem a

/-- Modelled from the spec: the card itself is not part of the sources; by sections 3 and 4.5 a
receive fill of slot `i` writes the packet into the slot's buffer, records its length in the
descriptor and sets the done bit (status bit 0). -/
def hw_rx_fill (d : Driver) (i : Nat) (packet : List Nat) : Driver :=
  let desc := d._rx_descriptors.getD i default
  let desc := { desc with length := packet.length, status := desc.status ||| 1 }
  { d with memory := store_bytes d.memory (d._rx_buffers.getD i 0) packet,
           _rx_descriptors := d._rx_descriptors.set i desc }

/-- Modelled from the spec: the card itself is not part of the sources; by section 4.5 the card
marks transmit slot `i` done again by setting status bit 0 of its descriptor. -/
def hw_tx_done (d : Driver) (i : Nat) : Driver :=
  let desc := d._tx_descriptors.getD i default
  let desc := { desc with status := desc.status ||| 1 }
  { d with _tx_descriptors := d._tx_descriptors.set i desc }

/-! ## Runs -/

/-- Consecutive calls of `e1000_send_packet`, one per `(buffer, size)` pair. -/
def send_packets (cfg : Config) (d : Driver) (pkts : List (Nat × Nat)) : Driver :=
  pkts.foldl (fun s p => (e1000_send_packet cfg s p.1 p.2).2) d

/-- Readiness of transmit slot `i`: what `Net::can_write` answers when the cursor is `i`. -/
def tx_ready (d : Driver) (i : Nat) : Bool :=
  Net.can_write { d with _current_tx_descriptors := i }

/-- Readiness of receive slot `i`: what `Net::can_read` answers when the cursor is `i`. -/
def rx_ready (d : Driver) (i : Nat) : Bool :=
  Net.can_read { d with _current_rx_descriptors := i }

/-- An event on the transmit ring: a call of `e1000_send_packet`, or the card marking a slot
done. -/
inductive TxEvent where
  | send (buffer size : Nat)
  | done (i : Nat)
deriving DecidableEq, Repr

/-- One event on the transmit ring. -/
def tx_step (cfg : Config) (d : Driver) : TxEvent → Driver
  | TxEvent.send buffer size => (e1000_send_packet cfg d buffer size).2
  | TxEvent.done i => hw_tx_done d i

/-- A run of events on the transmit ring. -/
def tx_run (cfg : Config) (d : Driver) (evs : List TxEvent) : Driver :=
  evs.foldl (tx_step cfg) d

/-- An event on the receive ring: a call of `e1000_receive_packet`, or the card filling a
slot. -/
inductive RxEvent where
  | receive (buffer size : Nat)
  | fill (i : Nat) (packet : List Nat)
deriving DecidableEq, Repr

/-- One event on the receive ring. -/
def rx_step (cfg : Config) (d : Driver) : RxEvent → Driver
  | RxEvent.receive buffer size => (e1000_receive_packet cfg d buffer size).2
  | RxEvent.fill i packet => hw_rx_fill d i packet

/-- A run of events on the receive ring. -/
def rx_run (cfg : Config) (d : Driver) (evs : List RxEvent) : Driver :=
  evs.foldl (rx_step cfg) d

/-- Whether the run `evs` from `d` has a receive call that claims slot `i` (is made with the
cursor at `i`) while `pending` holds, where `pending` says that slot `i` has been claimed and
not been filled since. -/
def double_claim (cfg : Config) (i : Nat) : Bool → Driver → List RxEvent → Bool
  | _, _, [] => false
  | pending, d, RxEvent.receive buffer size :: evs =>
    if d._current_rx_descriptors = i then
      pending || double_claim cfg i true (e1000_receive_packet cfg d buffer size).2 evs
    else
      double_claim cfg i pending (e1000_receive_packet cfg d buffer size).2 evs
  | pending, d, RxEvent.fill j packet :: evs =>
    double_claim cfg i (if j = i then false else pending) (hw_rx_fill d j packet) evs

/-- Whether every receive call of the run `evs` from `d` is made at a moment when
`Net::can_read` answers true. -/
def rx_guarded (cfg : Config) : Driver → List RxEvent → Bool
  | _, [] => true
  | d, RxEvent.receive buffer size :: evs =>
    Net.can_read d && rx_guarded cfg (e1000_receive_packet cfg d buffer size).2 evs
  | d, RxEvent.fill j packet :: evs => rx_guarded cfg (hw_rx_fill d j packet) evs

/-- A call into the driver after initialisation. -/
inductive Call where
  | receive (buffer size : Nat)
  | send (buffer size : Nat)
  | interrupt
deriving DecidableEq, Repr

/-- One call into the driver. -/
def call_step (cfg : Config) (d : Driver) : Call → Driver
  | Call.receive buffer size => (e1000_receive_packet cfg d buffer size).2
  | Call.send buffer size => (e1000_send_packet cfg d buffer size).2
  | Call.interrupt => e1000_interrupt_handler cfg d

/-- A sequence of calls into the driver. -/
def run_calls (cfg : Config) (d : Driver) (calls : List Call) : Driver :=
  calls.foldl (call_step cfg) d

/-- The ring part of `e1000_initialize` (lines 334 to 336): both rings are set up, then the
interrupts are enabled. -/
def rings_initialized (cfg : Config) (rx : RxResources) (tx : TxResources) (d : Driver) : Driver :=
  e1000_enable_interrupt cfg (e1000_initialize_tx cfg tx (e1000_initialize_rx cfg rx d))

/-- The values written to the register at `offset`, oldest first. -/
def writes_to (log : List RegAccess) (offset : Nat) : List Nat :=
  log.filterMap fun a =>
    match a with
    | RegAccess.write o v => if o = offset then some v else none
    | RegAccess.read _ _ => none

/-- The number of reads in a log. -/
def count_reads (log : List RegAccess) : Nat :=
  (log.filter fun a =>
    match a with
    | RegAccess.write _ _ => false
    | RegAccess.read _ _ => true).length

/-- What a call leaves alone: the two arrays of buffer handles and the address field of every
descriptor of both rings. -/
def SamePairing (d s : Driver) : Prop :=
  s._rx_buffers = d._rx_buffers ∧ s._tx_buffers = d._tx_buffers ∧
  (∀ i, (s._rx_descriptors.getD i default).address = (d._rx_descriptors.getD i default).address) ∧
  (∀ i, (s._tx_descriptors.getD i default).address = (d._tx_descriptors.getD i default).address)

/-! ## Worked-example inputs -/

/-- A configuration with the register offsets and flag values of the 8254x family, with the
ring sizes left open, for the worked examples. -/
def example_config (nrx ntx : Nat) : Config where
  E1000_NUM_RX_DESC := nrx
  E1000_NUM_TX_DESC := ntx
  sizeof_E1000RXDescriptor := 16
  sizeof_E1000TXDescriptor := 16
  E1000_REG_CONTROL := 0x0000
  E1000_REG_STATUS := 0x0008
  E1000_REG_EEPROM := 0x0014
  E1000_REG_IMASK := 0x00D0
  E1000_REG_MAC_LOW := 0x5400
  E1000_REG_MAC_HIGHT := 0x5404
  E1000_REG_RX_CONTROL := 0x0100
  E1000_REG_RX_LOW := 0x2800
  E1000_REG_RX_HIGH := 0x2804
  E1000_REG_RX_LENGTH := 0x2808
  E1000_REG_RX_HEAD := 0x2810
  E1000_REG_RX_TAIL := 0x2818
  E1000_REG_TX_CONTROL := 0x0400
  E1000_REG_TX_LOW := 0x3800
  E1000_REG_TX_HIGH := 0x3804
  E1000_REG_TX_LENGTH := 0x3808
  E1000_REG_TX_HEAD := 0x3810
  E1000_REG_TX_TAIL := 0x3818
  E1000_CTL_START_LINK := 0x40
  RCTL_EN := 0x2
  RCTL_SBP := 0x4
  RCTL_UPE := 0x8
  RCTL_MPE := 0x10
  RCTL_LBM_NONE := 0x0
  RTCL_RDMTS_HALF := 0x0
  RCTL_BAM := 0x8000
  RCTL_SECRC := 0x4000000
  RCTL_BSIZE_8192 := 0x2020000
  TCTL_EN := 0x2
  TCTL_PSP := 0x8
  TCTL_CT_SHIFT := 4
  TCTL_COLD_SHIFT := 12
  TCTL_RTLC := 0x1000000
  CMD_EOP := 0x1
  CMD_IFCS := 0x2
  CMD_RS := 0x8
  virtual_to_physical := fun v => v - 0xC0000000

/-- The driver before `e1000_initialize`: every static is zero-initialised, memory holds `mem`,
and the card will answer its reads with `rd`.  The register window is the port window at
port 0. -/
def boot (mem rd : Nat → Nat) : Driver where
  _mmio_range := ⟨0, 0⟩
  _pio_base := 0
  _has_eeprom := false
  _mac_address := ⟨[0, 0, 0, 0, 0, 0]⟩
  _current_rx_descriptors := 0
  _rx_descriptors_range := ⟨0, 0⟩
  _rx_descriptors := []
  _rx_buffers := []
  _current_tx_descriptors := 0
  _tx_descriptors_range := ⟨0, 0⟩
  _tx_descriptors := []
  _tx_buffers := []
  memory := mem
  dev := ⟨0, [], rd, 0⟩

/-- The driver before ring set-up with a memory-mapped register window. -/
def boot_mapped (mem rd : Nat → Nat) : Driver :=
  { boot mem rd with _mmio_range := ⟨0xF0000000, 0x20000⟩ }

/-- Receive resources for the worked examples: buffers of 8192 bytes from `0xC0100000` on. -/
def example_rx : RxResources where
  range := ⟨0x200000, 4096⟩
  fresh := fun _ => ⟨0, 0, 0⟩
  buffer := fun i => 0xC0100000 + 8192 * i

/-- Transmit resources for the worked examples: buffers of 8192 bytes from `0xC0200000` on. -/
def example_tx : TxResources where
  range := ⟨0x201000, 4096⟩
  fresh := fun _ => ⟨0, 0, 0, 0⟩
  buffer := fun i => 0xC0200000 + 8192 * i

/-- A receive ring of two slots right after set-up, whose slot 0 the card has filled with a
packet of three bytes. -/
def example_rx_filled : Driver :=
  hw_rx_fill (e1000_initialize_rx (example_config 2 2) example_rx
    (boot (fun _ => 0) (fun _ => 0))) 0 [0xde, 0xad, 0xbe]

/-- A driver that has detected an EEPROM, in front of a card that answers its first three
reads with the done bit (bit 4) set and the words `0x0211`, `0x2233`, `0x4455` in the upper
half. -/
def example_eeprom_driver : Driver :=
  { boot (fun _ => 0) (fun k => [0x02110010, 0x22330010, 0x44550010].getD k 0) with
    _has_eeprom := true }

/-- A driver without EEPROM, in front of a card whose MAC registers hold `0x12005452` and
`0xffff5634`. -/
def example_register_driver : Driver :=
  boot_mapped (fun _ => 0) (fun k => [0x12005452, 0xffff5634].getD k 0)

/-- The driver state that a call of `e1000_eeprom_read` leaves behind (the state of before the
call when the polling budget runs out). -/
def eeprom_read_state (cfg : Config) (fuel : Nat) (d : Driver) (address : Nat) : Driver :=
  ((e1000_eeprom_read cfg fuel d address).getD (0, d)).2

/-- Whether the answer of the card to read number `k` after the state `d` has all the bits of
`mask` clear or not: true when one of them is set. -/
def answer_has (d : Driver) (mask k : Nat) : Bool :=
  u32 (d.dev.rd (d.dev.nreads + k)) &&& mask != 0

/-- The log entries of `m` consecutive reads of the register at `offset`, starting with the
next answer of the card after the state `d`. -/
def reads_of (d : Driver) (offset m : Nat) : List RegAccess :=
  (List.range m).map fun j => RegAccess.read offset (u32 (d.dev.rd (d.dev.nreads + j)))

/-- A driver in front of a card whose EEPROM register shows the done bit `0x10` from the third
read on. -/
def example_slow_eeprom : Driver :=
  boot (fun _ => 0) (fun k => if k < 2 then 0 else 0x10)

/-- A receive ring of two slots right after set-up. -/
def example_rx_ring : Driver :=
  e1000_initialize_rx (example_config 2 2) example_rx (boot (fun _ => 0) (fun _ => 0))

/-- A driver in front of a card that answers the first read with `0x6` (status, with the
link-status-change bit, value 4, set) and the second with `0x100201` (control). -/
def example_link_change : Driver :=
  boot (fun _ => 0) (fun k => [0x6, 0x100201].getD k 0)

/-- Both cursors are inside their rings, and the four arrays have the size of their ring. -/
def RingsInRange (cfg : Config) (d : Driver) : Prop :=
  d._current_rx_descriptors < cfg.E1000_NUM_RX_DESC ∧
  d._current_tx_descriptors < cfg.E1000_NUM_TX_DESC ∧
  d._rx_descriptors.length = cfg.E1000_NUM_RX_DESC ∧
  d._rx_buffers.length = cfg.E1000_NUM_RX_DESC ∧
  d._tx_descriptors.length = cfg.E1000_NUM_TX_DESC ∧
  d._tx_buffers.length = cfg.E1000_NUM_TX_DESC

/-- A driver whose cached MAC address is `52:54:00:12:34:56`, with rings of two slots. -/
def example_named_driver : Driver :=
  { rings_initialized (example_config 2 2) example_rx example_tx
      (boot (fun _ => 0) (fun _ => 0)) with
    _mac_address := ⟨[0x52, 0x54, 0x00, 0x12, 0x34, 0x56]⟩ }

/-- A driver without detected EEPROM, in front of a card whose EEPROM register shows the done
bit of that variant (bit 1) from the third read on, with the word `0xbeef` in the upper half;
the first two answers carry other data and bit 4, which this variant does not wait for. -/
def example_old_eeprom : Driver :=
  boot (fun _ => 0) (fun k => if k < 2 then 0x12340010 else 0xbeef0002)

/-! ## Basic facts -/

theorem getD_set_self {α : Type} (xs : List α) (i : Nat) (v dflt : α) (h : i < xs.length) :
    (xs.set i v).getD i dflt = v := by
  simp [List.getD_eq_getElem?_getD, List.getElem?_set, h]

theorem getD_set_ne {α : Type} (xs : List α) (i j : Nat) (v dflt : α) (h : i ≠ j) :
    (xs.set i v).getD j dflt = xs.getD j dflt := by
  simp [List.getD_eq_getElem?_getD, List.getElem?_set, h]

/-- What `e1000_write` does, on either transport: the card logs one write of `value` to the
register at `offset`; only the index latch of the port window can change besides. -/
theorem e1000_write_eq (d : Driver) (offset value : Nat) :
    e1000_write d offset value =
      { d with dev := { d.dev with
          ioaddr := if d._mmio_range.empty then offset else d.dev.ioaddr,
          log := d.dev.log ++ [RegAccess.write offset value] } } := by
  unfold e1000_write
  cases h : d._mmio_range.empty <;> simp [mmio_write32, out32]

/-- What `e1000_read` does, on either transport: the card answers with its next value. -/
theorem e1000_read_eq (d : Driver) (offset : Nat) :
    e1000_read d offset =
      (u32 (d.dev.rd d.dev.nreads),
       { d with dev := { d.dev with
          ioaddr := if d._mmio_range.empty then offset else d.dev.ioaddr,
          log := d.dev.log ++ [RegAccess.read offset (u32 (d.dev.rd d.dev.nreads))],
          nreads := d.dev.nreads + 1 } }) := by
  unfold e1000_read
  cases h : d._mmio_range.empty <;> simp [mmio_read32, in32, out32]

/-! ## Transmit cursor -/

theorem send_packet_cursor (cfg : Config) (d : Driver) (buffer size : Nat) :
    (e1000_send_packet cfg d buffer size).2._current_tx_descriptors =
      (d._current_tx_descriptors + 1) % cfg.E1000_NUM_TX_DESC := by
  simp [e1000_send_packet, e1000_write_eq]

theorem send_packets_cursor (cfg : Config) (pkts : List (Nat × Nat)) (d : Driver)
    (h : d._current_tx_descriptors < cfg.E1000_NUM_TX_DESC) :
    (send_packets cfg d pkts)._current_tx_descriptors =
      (d._current_tx_descriptors + pkts.length) % cfg.E1000_NUM_TX_DESC := by
  induction pkts generalizing d with
  | nil => simp [send_packets, Nat.mod_eq_of_lt h]
  | cons p ps ih =>
    have hpos : 0 < cfg.E1000_NUM_TX_DESC := by omega
    have hlt : (e1000_send_packet cfg d p.1 p.2).2._current_tx_descriptors <
        cfg.E1000_NUM_TX_DESC := by
      rw [send_packet_cursor]
      exact Nat.mod_lt _ hpos
    have step := ih (e1000_send_packet cfg d p.1 p.2).2 hlt
    simp only [send_packets, List.foldl_cons, List.length_cons] at step ⊢
    rw [step, send_packet_cursor, Nat.mod_add_mod]
    congr 1
    omega

/-- C1: for every ring size `N > 0` and every transmit cursor `c < N`, `k` consecutive calls
of `e1000_send_packet`, with any buffers and sizes, leave the cursor at `(c + k) mod N`; that
is `c` again when `k = N`, and it differs from `c` when `0 < k < N`. -/
theorem C1_transmit_cursor_wraps (cfg : Config) (d : Driver) (pkts : List (Nat × Nat))
    (hc : d._current_tx_descriptors < cfg.E1000_NUM_TX_DESC) :
    (send_packets cfg d pkts)._current_tx_descriptors =
        (d._current_tx_descriptors + pkts.length) % cfg.E1000_NUM_TX_DESC ∧
    (pkts.length = cfg.E1000_NUM_TX_DESC →
        (send_packets cfg d pkts)._current_tx_descriptors = d._current_tx_descriptors) ∧
    (0 < pkts.length → pkts.length < cfg.E1000_NUM_TX_DESC →
        (send_packets cfg d pkts)._current_tx_descriptors ≠ d._current_tx_descriptors) := by
  have key := send_packets_cursor cfg pkts d hc
  refine ⟨key, ?_, ?_⟩
  · intro hk
    rw [key, hk, Nat.add_mod_right, Nat.mod_eq_of_lt hc]
  · intro h0 hk
    rw [key]
    by_cases hlt : d._current_tx_descriptors + pkts.length < cfg.E1000_NUM_TX_DESC
    · rw [Nat.mod_eq_of_lt hlt]
      omega
    · rw [Nat.mod_eq_sub_mod (by omega), Nat.mod_eq_of_lt (by omega)]
      omega

/-- C1 at a ring of three slots with the cursor at 1: three sends bring the cursor back to 1,
and two sends do not. -/
theorem C1_transmit_cursor_wraps_witness :
    (1 < (example_config 3 3).E1000_NUM_TX_DESC) ∧
    (send_packets (example_config 3 3)
        { boot (fun _ => 0) (fun _ => 0) with _current_tx_descriptors := 1 }
        [(0x1000, 60), (0x2000, 1500), (0x3000, 0)])._current_tx_descriptors = 1 ∧
    (send_packets (example_config 3 3)
        { boot (fun _ => 0) (fun _ => 0) with _current_tx_descriptors := 1 }
        [(0x1000, 60), (0x2000, 1500)])._current_tx_descriptors ≠ 1 :=
  ⟨by decide,
   (C1_transmit_cursor_wraps (example_config 3 3)
      { boot (fun _ => 0) (fun _ => 0) with _current_tx_descriptors := 1 }
      [(0x1000, 60), (0x2000, 1500), (0x3000, 0)] (by decide)).2.1 rfl,
   (C1_transmit_cursor_wraps (example_config 3 3)
      { boot (fun _ => 0) (fun _ => 0) with _current_tx_descriptors := 1 }
      [(0x1000, 60), (0x2000, 1500)] (by decide)).2.2 (by decide) (by decide)⟩

/-! ## Ring initialisation: what the loops leave behind -/

theorem initialize_rx_loop_frame (cfg : Config) (res : RxResources) (l : List Nat) (d : Driver) :
    ∃ bs ds, l.foldl (e1000_initialize_rx_body cfg res) d =
      { d with _rx_buffers := bs, _rx_descriptors := ds } := by
  induction l generalizing d with
  | nil => exact ⟨d._rx_buffers, d._rx_descriptors, rfl⟩
  | cons i l ih =>
    obtain ⟨bs, ds, h⟩ := ih (e1000_initialize_rx_body cfg res d i)
    exact ⟨bs, ds, by rw [List.foldl_cons, h]; rfl⟩

theorem initialize_rx_loop_spec (cfg : Config) (res : RxResources) (d : Driver) (n : Nat) :
    ((List.range n).foldl (e1000_initialize_rx_body cfg res) d)._rx_buffers.length =
        d._rx_buffers.length ∧
    ((List.range n).foldl (e1000_initialize_rx_body cfg res) d)._rx_descriptors.length =
        d._rx_descriptors.length ∧
    (∀ i, i < n → i < d._rx_buffers.length → i < d._rx_descriptors.length →
      ((List.range n).foldl (e1000_initialize_rx_body cfg res) d)._rx_buffers.getD i 0 =
          res.buffer i ∧
      ((List.range n).foldl (e1000_initialize_rx_body cfg res) d)._rx_descriptors.getD i default =
          ⟨cfg.virtual_to_physical (res.buffer i),
            (d._rx_descriptors.getD i default).length, 0x1⟩) ∧
    (∀ i, n ≤ i →
      ((List.range n).foldl (e1000_initialize_rx_body cfg res) d)._rx_buffers.getD i 0 =
          d._rx_buffers.getD i 0 ∧
      ((List.range n).foldl (e1000_initialize_rx_body cfg res) d)._rx_descriptors.getD i default =
          d._rx_descriptors.getD i default) := by
  induction n with
  | zero => simp
  | succ n ih =>
    obtain ⟨hb, hd, hlo, hhi⟩ := ih
    rw [List.range_succ, List.foldl_append]
    simp only [List.foldl_cons, List.foldl_nil]
    generalize (List.range n).foldl (e1000_initialize_rx_body cfg res) d = s at hb hd hlo hhi
    refine ⟨?_, ?_, ?_, ?_⟩
    · simp [e1000_initialize_rx_body, hb]
    · simp [e1000_initialize_rx_body, hd]
    · intro i hi hib hid
      by_cases hin : i = n
      · subst hin
        have h1 : i < s._rx_buffers.length := by omega
        have h2 : i < s._rx_descriptors.length := by omega
        have h3 := (hhi i (Nat.le_refl i)).2
        simp [e1000_initialize_rx_body, getD_set_self, h1, h2, h3, -List.getD_eq_getElem?_getD]
      · have hlt : i < n := by omega
        have h3 := hlo i hlt hib hid
        have hne : n ≠ i := fun h => hin h.symm
        simp [e1000_initialize_rx_body, getD_set_ne, hne, h3, -List.getD_eq_getElem?_getD]
    · intro i hi
      have h3 := hhi i (by omega)
      have hne : n ≠ i := by omega
      simp [e1000_initialize_rx_body, getD_set_ne, hne, h3, -List.getD_eq_getElem?_getD]

theorem initialize_tx_loop_frame (cfg : Config) (res : TxResources) (l : List Nat) (d : Driver) :
    ∃ bs ds, l.foldl (e1000_initialize_tx_body cfg res) d =
      { d with _tx_buffers := bs, _tx_descriptors := ds } := by
  induction l generalizing d with
  | nil => exact ⟨d._tx_buffers, d._tx_descriptors, rfl⟩
  | cons i l ih =>
    obtain ⟨bs, ds, h⟩ := ih (e1000_initialize_tx_body cfg res d i)
    exact ⟨bs, ds, by rw [List.foldl_cons, h]; rfl⟩

theorem initialize_tx_loop_spec (cfg : Config) (res : TxResources) (d : Driver) (n : Nat) :
    ((List.range n).foldl (e1000_initialize_tx_body cfg res) d)._tx_buffers.length =
        d._tx_buffers.length ∧
    ((List.range n).foldl (e1000_initialize_tx_body cfg res) d)._tx_descriptors.length =
        d._tx_descriptors.length ∧
    (∀ i, i < n → i < d._tx_buffers.length → i < d._tx_descriptors.length →
      ((List.range n).foldl (e1000_initialize_tx_body cfg res) d)._tx_buffers.getD i 0 =
          res.buffer i ∧
      ((List.range n).foldl (e1000_initialize_tx_body cfg res) d)._tx_descriptors.getD i default =
          ⟨cfg.virtual_to_physical (res.buffer i),
            (d._tx_descriptors.getD i default).length,
            (d._tx_descriptors.getD i default).command, 0xff⟩) ∧
    (∀ i, n ≤ i →
      ((List.range n).foldl (e1000_initialize_tx_body cfg res) d)._tx_buffers.getD i 0 =
          d._tx_buffers.getD i 0 ∧
      ((List.range n).foldl (e1000_initialize_tx_body cfg res) d)._tx_descriptors.getD i default =
          d._tx_descriptors.getD i default) := by
  induction n with
  | zero => simp
  | succ n ih =>
    obtain ⟨hb, hd, hlo, hhi⟩ := ih
    rw [List.range_succ, List.foldl_append]
    simp only [List.foldl_cons, List.foldl_nil]
    generalize (List.range n).foldl (e1000_initialize_tx_body cfg res) d = s at hb hd hlo hhi
    refine ⟨?_, ?_, ?_, ?_⟩
    · simp [e1000_initialize_tx_body, hb]
    · simp [e1000_initialize_tx_body, hd]
    · intro i hi hib hid
      by_cases hin : i = n
      · subst hin
        have h1 : i < s._tx_buffers.length := by omega
        have h2 : i < s._tx_descriptors.length := by omega
        have h3 := (hhi i (Nat.le_refl i)).2
        simp [e1000_initialize_tx_body, getD_set_self, h1, h2, h3, -List.getD_eq_getElem?_getD]
      · have hlt : i < n := by omega
        have h3 := hlo i hlt hib hid
        have hne : n ≠ i := fun h => hin h.symm
        simp [e1000_initialize_tx_body, getD_set_ne, hne, h3, -List.getD_eq_getElem?_getD]
    · intro i hi
      have h3 := hhi i (by omega)
      have hne : n ≠ i := by omega
      simp [e1000_initialize_tx_body, getD_set_ne, hne, h3, -List.getD_eq_getElem?_getD]

/-- After `e1000_initialize_rx`: both receive arrays have `E1000_NUM_RX_DESC` entries, buffer
handle `i` is the `i`-th allocation, and descriptor `i` holds that buffer's physical address
and status `0x1`. -/
theorem initialize_rx_spec (cfg : Config) (res : RxResources) (d : Driver) :
    (e1000_initialize_rx cfg res d)._rx_buffers.length = cfg.E1000_NUM_RX_DESC ∧
    (e1000_initialize_rx cfg res d)._rx_descriptors.length = cfg.E1000_NUM_RX_DESC ∧
    ∀ i, i < cfg.E1000_NUM_RX_DESC →
      (e1000_initialize_rx cfg res d)._rx_buffers.getD i 0 = res.buffer i ∧
      (e1000_initialize_rx cfg res d)._rx_descriptors.getD i default =
        ⟨cfg.virtual_to_physical (res.buffer i), (res.fresh i).length, 0x1⟩ := by
  have hloop := initialize_rx_loop_spec cfg res
    { d with _rx_descriptors_range := res.range,
             _rx_buffers := List.replicate cfg.E1000_NUM_RX_DESC 0,
             _rx_descriptors := (List.range cfg.E1000_NUM_RX_DESC).map res.fresh }
    cfg.E1000_NUM_RX_DESC
  obtain ⟨hb, hd, hlo, -⟩ := hloop
  simp only [List.length_replicate, List.length_map, List.length_range] at hb hd hlo
  refine ⟨?_, ?_, ?_⟩
  · simpa [e1000_initialize_rx, e1000_write_eq] using hb
  · simpa [e1000_initialize_rx, e1000_write_eq] using hd
  · intro i hi
    have h := hlo i hi hi hi
    have hf : ((List.range cfg.E1000_NUM_RX_DESC).map res.fresh).getD i default = res.fresh i := by
      simp [List.getD_eq_getElem?_getD, List.getElem?_map, List.getElem?_range, hi]
    rw [hf] at h
    simpa [e1000_initialize_rx, e1000_write_eq, -List.getD_eq_getElem?_getD] using h

/-- What `e1000_initialize_rx` leaves alone: the transmit ring and both cursors. -/
theorem initialize_rx_frame (cfg : Config) (res : RxResources) (d : Driver) :
    (e1000_initialize_rx cfg res d)._tx_buffers = d._tx_buffers ∧
    (e1000_initialize_rx cfg res d)._tx_descriptors = d._tx_descriptors ∧
    (e1000_initialize_rx cfg res d)._current_rx_descriptors = d._current_rx_descriptors ∧
    (e1000_initialize_rx cfg res d)._current_tx_descriptors = d._current_tx_descriptors := by
  obtain ⟨bs, ds, h⟩ := initialize_rx_loop_frame cfg res (List.range cfg.E1000_NUM_RX_DESC)
    { d with _rx_descriptors_range := res.range,
             _rx_buffers := List.replicate cfg.E1000_NUM_RX_DESC 0,
             _rx_descriptors := (List.range cfg.E1000_NUM_RX_DESC).map res.fresh }
  simp [e1000_initialize_rx, e1000_write_eq, h]

/-- After `e1000_initialize_tx`: both transmit arrays have `E1000_NUM_TX_DESC` entries, buffer
handle `i` is the `i`-th allocation, and descriptor `i` holds that buffer's physical address
and status `0xff`. -/
theorem initialize_tx_spec (cfg : Config) (res : TxResources) (d : Driver) :
    (e1000_initialize_tx cfg res d)._tx_buffers.length = cfg.E1000_NUM_TX_DESC ∧
    (e1000_initialize_tx cfg res d)._tx_descriptors.length = cfg.E1000_NUM_TX_DESC ∧
    ∀ i, i < cfg.E1000_NUM_TX_DESC →
      (e1000_initialize_tx cfg res d)._tx_buffers.getD i 0 = res.buffer i ∧
      (e1000_initialize_tx cfg res d)._tx_descriptors.getD i default =
        ⟨cfg.virtual_to_physical (res.buffer i), (res.fresh i).length,
          (res.fresh i).command, 0xff⟩ := by
  have hloop := initialize_tx_loop_spec cfg res
    { d with _tx_descriptors_range := res.range,
             _tx_buffers := List.replicate cfg.E1000_NUM_TX_DESC 0,
             _tx_descriptors := (List.range cfg.E1000_NUM_TX_DESC).map res.fresh }
    cfg.E1000_NUM_TX_DESC
  obtain ⟨hb, hd, hlo, -⟩ := hloop
  simp only [List.length_replicate, List.length_map, List.length_range] at hb hd hlo
  refine ⟨?_, ?_, ?_⟩
  · simpa [e1000_initialize_tx, e1000_write_eq] using hb
  · simpa [e1000_initialize_tx, e1000_write_eq] using hd
  · intro i hi
    have h := hlo i hi hi hi
    have hf : ((List.range cfg.E1000_NUM_TX_DESC).map res.fresh).getD i default = res.fresh i := by
      simp [List.getD_eq_getElem?_getD, List.getElem?_map, List.getElem?_range, hi]
    rw [hf] at h
    simpa [e1000_initialize_tx, e1000_write_eq, -List.getD_eq_getElem?_getD] using h

/-- What `e1000_initialize_tx` leaves alone: the receive ring and both cursors. -/
theorem initialize_tx_frame (cfg : Config) (res : TxResources) (d : Driver) :
    (e1000_initialize_tx cfg res d)._rx_buffers = d._rx_buffers ∧
    (e1000_initialize_tx cfg res d)._rx_descriptors = d._rx_descriptors ∧
    (e1000_initialize_tx cfg res d)._current_rx_descriptors = d._current_rx_descriptors ∧
    (e1000_initialize_tx cfg res d)._current_tx_descriptors = d._current_tx_descriptors := by
  obtain ⟨bs, ds, h⟩ := initialize_tx_loop_frame cfg res (List.range cfg.E1000_NUM_TX_DESC)
    { d with _tx_descriptors_range := res.range,
             _tx_buffers := List.replicate cfg.E1000_NUM_TX_DESC 0,
             _tx_descriptors := (List.range cfg.E1000_NUM_TX_DESC).map res.fresh }
  simp [e1000_initialize_tx, e1000_write_eq, h]

/-! ## Readiness of a slot -/

theorem default_rx_status : (default : E1000RXDescriptor).status = 0 := rfl

theorem default_tx_status : (default : E1000TXDescriptor).status = 0 := rfl

theorem or_one_and_one (x : Nat) : (x ||| 1) &&& 1 = 1 := by
  rw [Nat.and_one_is_mod, Nat.or_mod_two_eq_one]
  exact Or.inr rfl

theorem rx_ready_eq (d : Driver) (i : Nat) :
    rx_ready d i = ((d._rx_descriptors.getD i default).status &&& 0x1 != 0) := rfl

theorem tx_ready_eq (d : Driver) (i : Nat) :
    tx_ready d i = ((d._tx_descriptors.getD i default).status &&& 1 != 0) := rfl

/-- The status of a slot read after a write at the same index: the written status inside the
array, the default status 0 outside. -/
theorem rx_status_set_self (xs : List E1000RXDescriptor) (i : Nat) (v : E1000RXDescriptor)
    (hv : v.status = 0) : ((xs.set i v).getD i default).status = 0 := by
  by_cases h : i < xs.length
  · rw [getD_set_self xs i v default h, hv]
  · have : (xs.set i v).getD i default = default := by
      simp [List.getD_eq_getElem?_getD, List.getElem?_set, h]
    rw [this]
    rfl

theorem tx_status_set_self (xs : List E1000TXDescriptor) (i : Nat) (v : E1000TXDescriptor)
    (hv : v.status = 0) : ((xs.set i v).getD i default).status = 0 := by
  by_cases h : i < xs.length
  · rw [getD_set_self xs i v default h, hv]
  · have : (xs.set i v).getD i default = default := by
      simp [List.getD_eq_getElem?_getD, List.getElem?_set, h]
    rw [this]
    rfl

theorem send_packet_descriptors (cfg : Config) (d : Driver) (buffer size : Nat) :
    (e1000_send_packet cfg d buffer size).2._tx_descriptors =
      ((d._tx_descriptors.set d._current_tx_descriptors
          { d._tx_descriptors.getD d._current_tx_descriptors default with length := u16 size }).set
        d._current_tx_descriptors
          { (d._tx_descriptors.set d._current_tx_descriptors
              { d._tx_descriptors.getD d._current_tx_descriptors default with
                length := u16 size }).getD d._current_tx_descriptors default with
            command := cfg.CMD_EOP ||| cfg.CMD_IFCS ||| cfg.CMD_RS }).set
        d._current_tx_descriptors
          { ((d._tx_descriptors.set d._current_tx_descriptors
              { d._tx_descriptors.getD d._current_tx_descriptors default with
                length := u16 size }).set d._current_tx_descriptors
              { (d._tx_descriptors.set d._current_tx_descriptors
                  { d._tx_descriptors.getD d._current_tx_descriptors default with
                    length := u16 size }).getD d._current_tx_descriptors default with
                command := cfg.CMD_EOP ||| cfg.CMD_IFCS ||| cfg.CMD_RS }).getD
              d._current_tx_descriptors default with status := 0 } := by
  simp [e1000_send_packet, e1000_write_eq, -List.getD_eq_getElem?_getD]

/-- A send leaves every descriptor but the one at the cursor as it was. -/
theorem send_packet_other_slot (cfg : Config) (d : Driver) (buffer size i : Nat)
    (h : d._current_tx_descriptors ≠ i) :
    (e1000_send_packet cfg d buffer size).2._tx_descriptors.getD i default =
      d._tx_descriptors.getD i default := by
  rw [send_packet_descriptors]
  simp only [getD_set_ne _ _ _ _ _ h]

/-- A send leaves the descriptor at the cursor with status 0. -/
theorem send_packet_status (cfg : Config) (d : Driver) (buffer size : Nat) :
    ((e1000_send_packet cfg d buffer size).2._tx_descriptors.getD
      d._current_tx_descriptors default).status = 0 := by
  rw [send_packet_descriptors]
  exact tx_status_set_self _ _ _ rfl

theorem send_packet_length (cfg : Config) (d : Driver) (buffer size : Nat) :
    (e1000_send_packet cfg d buffer size).2._tx_descriptors.length =
      d._tx_descriptors.length := by
  rw [send_packet_descriptors]
  simp

theorem tx_step_length (cfg : Config) (d : Driver) (e : TxEvent) :
    (tx_step cfg d e)._tx_descriptors.length = d._tx_descriptors.length := by
  cases e with
  | send buffer size => exact send_packet_length cfg d buffer size
  | done i => simp [tx_step, hw_tx_done]

theorem tx_run_length (cfg : Config) (evs : List TxEvent) (d : Driver) :
    (tx_run cfg d evs)._tx_descriptors.length = d._tx_descriptors.length := by
  induction evs generalizing d with
  | nil => rfl
  | cons e evs ih =>
    have h := ih (tx_step cfg d e)
    simp only [tx_run, List.foldl_cons] at h ⊢
    rw [h, tx_step_length]

/-- A transmit slot that is not ready stays so under every event except the card marking
that very slot done. -/
theorem tx_step_keeps_busy (cfg : Config) (d : Driver) (e : TxEvent) (i : Nat)
    (he : e ≠ TxEvent.done i) (h : tx_ready d i = false) :
    tx_ready (tx_step cfg d e) i = false := by
  cases e with
  | send buffer size =>
    by_cases hc : d._current_tx_descriptors = i
    · subst hc
      simp only [tx_step]
      rw [tx_ready_eq, send_packet_status]
      rfl
    · rw [tx_ready_eq] at h ⊢
      simp only [tx_step]
      rw [send_packet_other_slot cfg d buffer size i hc]
      exact h
  | done j =>
    have hne : j ≠ i := fun hj => he (by rw [hj])
    rw [tx_ready_eq] at h ⊢
    simpa [tx_step, hw_tx_done, getD_set_ne _ _ _ _ _ hne, -List.getD_eq_getElem?_getD] using h

theorem tx_run_keeps_busy (cfg : Config) (evs : List TxEvent) (d : Driver) (i : Nat)
    (he : TxEvent.done i ∉ evs) (h : tx_ready d i = false) :
    tx_ready (tx_run cfg d evs) i = false := by
  induction evs generalizing d with
  | nil => exact h
  | cons e evs ih =>
    have h1 : e ≠ TxEvent.done i := fun hh => he (by simp [hh])
    have h2 : TxEvent.done i ∉ evs := fun hh => he (by simp [hh])
    have := ih (tx_step cfg d e) h2 (tx_step_keeps_busy cfg d e i h1 h)
    simpa [tx_run] using this

/-- C3: transmit readiness of slot `i` (status bit 0 of descriptor `i`, the test of
`Net::can_write` with the cursor at `i`) is true right after `e1000_initialize_tx`; it is false
right after a call of `e1000_send_packet` made with the cursor at `i`; it stays false over every
further run of sends and of completions of other slots; and it is true again once the card sets
status bit 0 of slot `i`. -/
theorem C3_transmit_readiness (cfg : Config) (res : TxResources) (d0 d : Driver)
    (i buffer size : Nat) (evs : List TxEvent)
    (hi : i < cfg.E1000_NUM_TX_DESC)
    (hlen : d._tx_descriptors.length = cfg.E1000_NUM_TX_DESC)
    (hcur : d._current_tx_descriptors = i)
    (hev : TxEvent.done i ∉ evs) :
    tx_ready (e1000_initialize_tx cfg res d0) i = true ∧
    tx_ready (e1000_send_packet cfg d buffer size).2 i = false ∧
    tx_ready (tx_run cfg (e1000_send_packet cfg d buffer size).2 evs) i = false ∧
    tx_ready (hw_tx_done (tx_run cfg (e1000_send_packet cfg d buffer size).2 evs) i) i = true := by
  have hsend : tx_ready (e1000_send_packet cfg d buffer size).2 i = false := by
    subst hcur
    rw [tx_ready_eq, send_packet_status]
    rfl
  refine ⟨?_, hsend, tx_run_keeps_busy cfg evs _ i hev hsend, ?_⟩
  · rw [tx_ready_eq, ((initialize_tx_spec cfg res d0).2.2 i hi).2]
    show ((0xff &&& 1 != 0) = true)
    decide
  · have hl : i < (tx_run cfg (e1000_send_packet cfg d buffer size).2 evs)._tx_descriptors.length := by
      rw [tx_run_length, send_packet_length, hlen]
      exact hi
    rw [tx_ready_eq]
    simp only [hw_tx_done]
    rw [getD_set_self _ _ _ _ hl]
    simp [or_one_and_one]

/-- C3 on a ring of two slots set up by `e1000_initialize_tx`: slot 0 is ready after
initialisation, busy after the first send, still busy after a second send and the completion
of slot 1, and ready again after the completion of slot 0. -/
theorem C3_transmit_readiness_witness :
    tx_ready (e1000_initialize_tx (example_config 2 2) example_tx
        (boot (fun _ => 0) (fun _ => 0))) 0 = true ∧
    tx_ready (e1000_send_packet (example_config 2 2)
        (e1000_initialize_tx (example_config 2 2) example_tx (boot (fun _ => 0) (fun _ => 0)))
        0x5000 60).2 0 = false ∧
    tx_ready (tx_run (example_config 2 2) (e1000_send_packet (example_config 2 2)
        (e1000_initialize_tx (example_config 2 2) example_tx (boot (fun _ => 0) (fun _ => 0)))
        0x5000 60).2 [TxEvent.send 0x6000 40, TxEvent.done 1]) 0 = false ∧
    tx_ready (hw_tx_done (tx_run (example_config 2 2) (e1000_send_packet (example_config 2 2)
        (e1000_initialize_tx (example_config 2 2) example_tx (boot (fun _ => 0) (fun _ => 0)))
        0x5000 60).2 [TxEvent.send 0x6000 40, TxEvent.done 1]) 0) 0 = true :=
  C3_transmit_readiness (example_config 2 2) example_tx (boot (fun _ => 0) (fun _ => 0))
    (e1000_initialize_tx (example_config 2 2) example_tx (boot (fun _ => 0) (fun _ => 0)))
    0 0x5000 60 [TxEvent.send 0x6000 40, TxEvent.done 1]
    (by decide) (by rfl) (by rfl) (by decide)

/-! ## Receive readiness right after initialisation -/

/-- C2, the code at the point where it departs from the claim: right after
`e1000_initialize_rx`, before any fill by the card, receive readiness of slot `i` is true for
every slot of the ring (and false only for indices outside it), and `Net::can_read` answers
true whenever the cursor is inside the ring, because the loop stores status `0x1`. -/
theorem C2_receive_ready_after_init (cfg : Config) (res : RxResources) (d : Driver) (i : Nat) :
    rx_ready (e1000_initialize_rx cfg res d) i = decide (i < cfg.E1000_NUM_RX_DESC) ∧
    Net.can_read (e1000_initialize_rx cfg res d) =
      decide (d._current_rx_descriptors < cfg.E1000_NUM_RX_DESC) := by
  have key : ∀ j, rx_ready (e1000_initialize_rx cfg res d) j =
      decide (j < cfg.E1000_NUM_RX_DESC) := by
    intro j
    by_cases hj : j < cfg.E1000_NUM_RX_DESC
    · rw [rx_ready_eq, ((initialize_rx_spec cfg res d).2.2 j hj).2]
      simp [hj]
    · have hlen := (initialize_rx_spec cfg res d).2.1
      rw [rx_ready_eq, List.getD_eq_default _ _ (by omega)]
      simp [hj, default_rx_status]
  refine ⟨key i, ?_⟩
  have h := key d._current_rx_descriptors
  rw [rx_ready_eq] at h
  rw [← h]
  simp [Net.can_read, (initialize_rx_frame cfg res d).2.2.1, -List.getD_eq_getElem?_getD]

/-- Once the card fills a slot of the ring, the slot is ready. -/
theorem rx_ready_after_fill (d : Driver) (i : Nat) (packet : List Nat)
    (h : i < d._rx_descriptors.length) : rx_ready (hw_rx_fill d i packet) i = true := by
  rw [rx_ready_eq]
  simp only [hw_rx_fill]
  rw [getD_set_self _ _ _ _ h]
  simp [or_one_and_one]

/-! ## Receive -/

theorem memcpy_inside (mem : Nat → Nat) (dst src n k : Nat) (h : k < n) :
    memcpy mem dst src n (dst + k) = mem (src + k) := by
  simp [memcpy, h]

theorem memcpy_outside (mem : Nat → Nat) (dst src n a : Nat) (h : ¬(dst ≤ a ∧ a < dst + n)) :
    memcpy mem dst src n a = mem a := by
  simp only [memcpy, if_neg h]

theorem writes_to_append_write (log : List RegAccess) (offset value : Nat) :
    writes_to (log ++ [RegAccess.write offset value]) offset = writes_to log offset ++ [value] := by
  simp [writes_to, List.filterMap_append]

/-- What `e1000_receive_packet` returns and leaves behind. -/
theorem receive_packet_eq (cfg : Config) (d : Driver) (buffer size : Nat) :
    e1000_receive_packet cfg d buffer size =
      ((d._rx_descriptors.getD d._current_rx_descriptors default).length,
       { d with
          memory := memcpy d.memory buffer (d._rx_buffers.getD d._current_rx_descriptors 0)
            (d._rx_descriptors.getD d._current_rx_descriptors default).length,
          _rx_descriptors := d._rx_descriptors.set d._current_rx_descriptors
            { d._rx_descriptors.getD d._current_rx_descriptors default with status := 0 },
          _current_rx_descriptors := (d._current_rx_descriptors + 1) % cfg.E1000_NUM_RX_DESC,
          dev := { d.dev with
            ioaddr := if d._mmio_range.empty then cfg.E1000_REG_RX_TAIL else d.dev.ioaddr,
            log := d.dev.log ++
              [RegAccess.write cfg.E1000_REG_RX_TAIL (u16 d._current_rx_descriptors)] } }) := by
  simp only [e1000_receive_packet, e1000_write_eq]

theorem last_write_after (log : List RegAccess) (offset value : Nat) :
    (writes_to (log ++ [RegAccess.write offset value]) offset).getLast? = some value := by
  rw [writes_to_append_write]
  simp

/-- The receive tail register gets the cursor of before the call, converted to 16 bits. -/
theorem receive_packet_tail (cfg : Config) (d : Driver) (buffer size : Nat) :
    (writes_to (e1000_receive_packet cfg d buffer size).2.dev.log
        cfg.E1000_REG_RX_TAIL).getLast? = some (d._current_rx_descriptors % 65536) := by
  rw [receive_packet_eq]
  exact last_write_after _ _ _

/-- C4: for every driver state whose receive cursor `c` is inside a ring of `N` descriptors,
with `N` at most 65536 (the ring sizes whose indices the 16-bit receive tail register and the
`uint16_t old_cur` hold), `e1000_receive_packet` returns `rx_descriptor[c].length` and copies
exactly that many bytes from rx buffer `c` to the caller's buffer, whatever `size` is;
afterwards descriptor `c` has status 0 with its other fields kept, the cursor is
`(c + 1) mod N`, and the last value written to the receive tail register is the previous
cursor `c`. -/
theorem C4_receive_packet (cfg : Config) (d : Driver) (buffer size : Nat)
    (hN : cfg.E1000_NUM_RX_DESC ≤ 65536)
    (hc : d._current_rx_descriptors < cfg.E1000_NUM_RX_DESC)
    (hl : d._rx_descriptors.length = cfg.E1000_NUM_RX_DESC) :
    (e1000_receive_packet cfg d buffer size).1 =
      (d._rx_descriptors.getD d._current_rx_descriptors default).length ∧
    (∀ k, k < (d._rx_descriptors.getD d._current_rx_descriptors default).length →
      (e1000_receive_packet cfg d buffer size).2.memory (buffer + k) =
        d.memory (d._rx_buffers.getD d._current_rx_descriptors 0 + k)) ∧
    (∀ a, ¬(buffer ≤ a ∧
        a < buffer + (d._rx_descriptors.getD d._current_rx_descriptors default).length) →
      (e1000_receive_packet cfg d buffer size).2.memory a = d.memory a) ∧
    (∀ size2, e1000_receive_packet cfg d buffer size2 =
      e1000_receive_packet cfg d buffer size) ∧
    (e1000_receive_packet cfg d buffer size).2._rx_descriptors.getD
        d._current_rx_descriptors default =
      { d._rx_descriptors.getD d._current_rx_descriptors default with status := 0 } ∧
    (e1000_receive_packet cfg d buffer size).2._current_rx_descriptors =
      (d._current_rx_descriptors + 1) % cfg.E1000_NUM_RX_DESC ∧
    (writes_to (e1000_receive_packet cfg d buffer size).2.dev.log
        cfg.E1000_REG_RX_TAIL).getLast? = some d._current_rx_descriptors := by
  have hin : d._current_rx_descriptors < d._rx_descriptors.length := by omega
  have hsmall : d._current_rx_descriptors < 65536 := by omega
  have htail := receive_packet_tail cfg d buffer size
  refine ⟨?_, ?_, ?_, ?_, ?_, ?_, ?_⟩
  · rw [receive_packet_eq]
  · intro k hk
    rw [receive_packet_eq]
    exact memcpy_inside _ _ _ _ _ hk
  · intro a ha
    rw [receive_packet_eq]
    exact memcpy_outside _ _ _ _ _ ha
  · intro size2
    rw [receive_packet_eq, receive_packet_eq]
  · rw [receive_packet_eq]
    exact getD_set_self _ _ _ _ hin
  · rw [receive_packet_eq]
  · rw [htail, Nat.mod_eq_of_lt hsmall]

/-- C4 on a ring of two slots whose slot 0 holds a packet of three bytes: a receive with a
capacity of one byte still returns 3 and copies the third byte, moves the cursor to 1, clears
the status of slot 0 and writes the old cursor 0 to the receive tail register. -/
theorem C4_receive_packet_witness :
    (example_config 2 2).E1000_NUM_RX_DESC ≤ 65536 ∧
    example_rx_filled._current_rx_descriptors < (example_config 2 2).E1000_NUM_RX_DESC ∧
    (e1000_receive_packet (example_config 2 2) example_rx_filled 0x9000 1).1 = 3 ∧
    (e1000_receive_packet (example_config 2 2) example_rx_filled 0x9000 1).2.memory
        (0x9000 + 2) = 0xbe ∧
    ((e1000_receive_packet (example_config 2 2) example_rx_filled 0x9000 1).2._rx_descriptors.getD
        0 default).status = 0 ∧
    (e1000_receive_packet (example_config 2 2) example_rx_filled 0x9000 1).2._current_rx_descriptors
        = 1 ∧
    (writes_to (e1000_receive_packet (example_config 2 2) example_rx_filled 0x9000 1).2.dev.log
        (example_config 2 2).E1000_REG_RX_TAIL).getLast? = some 0 :=
  have h := C4_receive_packet (example_config 2 2) example_rx_filled 0x9000 1
    (by decide) (by decide) (by rfl)
  ⟨by decide, by decide, h.1.trans (by rfl), (h.2.1 2 (by decide)).trans (by rfl),
   (congrArg E1000RXDescriptor.status h.2.2.2.2.1).trans (by rfl),
   h.2.2.2.2.2.1.trans (by rfl), h.2.2.2.2.2.2⟩

/-! ## Send -/

theorem u8_and_ff (x : Nat) : u8 (x &&& 0xff) = x &&& 0xff := by
  have h : x &&& 0xff = x % 2 ^ 8 := Nat.and_pow_two_sub_one_eq_mod x 8
  rw [h, u8, Nat.mod_mod]

theorem u8_shift_of_u16 (w : Nat) (h : w < 65536) : u8 (w >>> 8) = w >>> 8 := by
  rw [u8, Nat.shiftRight_eq_div_pow]
  apply Nat.mod_eq_of_lt
  omega

/-- A 16-bit word is its low byte or-ed with its high byte shifted left by eight. -/
theorem word_of_bytes (w : Nat) : (w &&& 0xff) ||| ((w >>> 8) <<< 8) = w := by
  have h1 : w &&& 0xff = w % 2 ^ 8 := Nat.and_pow_two_sub_one_eq_mod w 8
  have h2 : w % 2 ^ 8 < 2 ^ 8 := Nat.mod_lt _ (by norm_num)
  rw [h1, Nat.shiftRight_eq_div_pow, Nat.shiftLeft_eq, Nat.or_comm, Nat.mul_comm,
    ← Nat.mul_add_lt_is_or h2]
  exact Nat.div_add_mod w (2 ^ 8)

/-- A word returned by `e1000_eeprom_read` is a `uint16_t`. -/
theorem eeprom_read_lt (cfg : Config) (fuel : Nat) (d : Driver) (address w : Nat) (d1 : Driver)
    (h : e1000_eeprom_read cfg fuel d address = some (w, d1)) : w < 65536 := by
  unfold e1000_eeprom_read at h
  split at h
  · dsimp only at h
    split at h
    · exact absurd h (by simp)
    · simp only [Option.some.injEq, Prod.mk.injEq] at h
      rw [← h.1, u16]
      exact Nat.mod_lt _ (by norm_num)
  · dsimp only at h
    split at h
    · exact absurd h (by simp)
    · simp only [Option.some.injEq, Prod.mk.injEq] at h
      rw [← h.1, u16]
      exact Nat.mod_lt _ (by norm_num)

/-- C6: on the EEPROM-present path, when `e1000_eeprom_read` returns the words `w0`, `w1`, `w2`
for the addresses 0, 1, 2, `e1000_mac_address_read` returns the six bytes
`[w0 & 0xff, w0 >> 8, w1 & 0xff, w1 >> 8, w2 & 0xff, w2 >> 8]`, low byte first per word; each
byte fits eight bits, and each word is recovered as `bytes[2k] | bytes[2k+1] << 8`. -/
theorem C6_mac_from_eeprom (cfg : Config) (fuel : Nat) (d d1 d2 d3 : Driver) (w0 w1 w2 : Nat)
    (he : d._has_eeprom = true)
    (h0 : e1000_eeprom_read cfg fuel d 0 = some (w0, d1))
    (h1 : e1000_eeprom_read cfg fuel d1 1 = some (w1, d2))
    (h2 : e1000_eeprom_read cfg fuel d2 2 = some (w2, d3)) :
    e1000_mac_address_read cfg fuel d =
      some (⟨[w0 &&& 0xff, w0 >>> 8, w1 &&& 0xff, w1 >>> 8, w2 &&& 0xff, w2 >>> 8]⟩, d3) ∧
    (w0 >>> 8 < 256 ∧ w1 >>> 8 < 256 ∧ w2 >>> 8 < 256) ∧
    (w0 &&& 0xff) ||| ((w0 >>> 8) <<< 8) = w0 ∧
    (w1 &&& 0xff) ||| ((w1 >>> 8) <<< 8) = w1 ∧
    (w2 &&& 0xff) ||| ((w2 >>> 8) <<< 8) = w2 := by
  have l0 := eeprom_read_lt cfg fuel d 0 w0 d1 h0
  have l1 := eeprom_read_lt cfg fuel d1 1 w1 d2 h1
  have l2 := eeprom_read_lt cfg fuel d2 2 w2 d3 h2
  refine ⟨?_, ⟨?_, ?_, ?_⟩, word_of_bytes w0, word_of_bytes w1, word_of_bytes w2⟩
  · unfold e1000_mac_address_read
    simp only [he, if_true, h0, h1, h2]
    simp [u8_and_ff, u8_shift_of_u16, l0, l1, l2]
  · rw [Nat.shiftRight_eq_div_pow]; omega
  · rw [Nat.shiftRight_eq_div_pow]; omega
  · rw [Nat.shiftRight_eq_div_pow]; omega

/-- C6 at the words `0x0211`, `0x2233`, `0x4455`: the address is `11:02:33:22:55:44`. -/
theorem C6_mac_from_eeprom_witness :
    example_eeprom_driver._has_eeprom = true ∧
    Option.map (fun r => r.1.bytes)
        (e1000_mac_address_read (example_config 2 2) 4 example_eeprom_driver) =
      some [0x11, 0x02, 0x33, 0x22, 0x55, 0x44] :=
  ⟨rfl,
   (congrArg (Option.map fun r => r.1.bytes)
      (C6_mac_from_eeprom (example_config 2 2) 4 example_eeprom_driver
        (eeprom_read_state (example_config 2 2) 4 example_eeprom_driver 0)
        (eeprom_read_state (example_config 2 2) 4
          (eeprom_read_state (example_config 2 2) 4 example_eeprom_driver 0) 1)
        (eeprom_read_state (example_config 2 2) 4
          (eeprom_read_state (example_config 2 2) 4
            (eeprom_read_state (example_config 2 2) 4 example_eeprom_driver 0) 1) 2)
        0x0211 0x2233 0x4455 rfl rfl rfl rfl).1).trans rfl⟩

theorem low_bytes_of_mod (x y : Nat) (h : x % 65536 = y % 65536) :
    x &&& 0xff = y &&& 0xff ∧ (x >>> 8) &&& 0xff = (y >>> 8) &&& 0xff := by
  have hx : x &&& 0xff = x % 2 ^ 8 := Nat.and_pow_two_sub_one_eq_mod x 8
  have hy : y &&& 0xff = y % 2 ^ 8 := Nat.and_pow_two_sub_one_eq_mod y 8
  have hx2 : (x >>> 8) &&& 0xff = (x >>> 8) % 2 ^ 8 := Nat.and_pow_two_sub_one_eq_mod _ 8
  have hy2 : (y >>> 8) &&& 0xff = (y >>> 8) % 2 ^ 8 := Nat.and_pow_two_sub_one_eq_mod _ 8
  rw [hx, hy, hx2, hy2, Nat.shiftRight_eq_div_pow, Nat.shiftRight_eq_div_pow]
  constructor <;> omega

/-- The address that `e1000_mac_address_read` builds from the two MAC registers. -/
theorem mac_address_read_registers (cfg : Config) (fuel : Nat) (d : Driver)
    (he : d._has_eeprom = false) :
    e1000_mac_address_read cfg fuel d =
      some (⟨[u32 (d.dev.rd d.dev.nreads) &&& 0xff,
              (u32 (d.dev.rd d.dev.nreads) >>> 8) &&& 0xff,
              (u32 (d.dev.rd d.dev.nreads) >>> 16) &&& 0xff,
              (u32 (d.dev.rd d.dev.nreads) >>> 24) &&& 0xff,
              u32 (d.dev.rd (d.dev.nreads + 1)) &&& 0xff,
              (u32 (d.dev.rd (d.dev.nreads + 1)) >>> 8) &&& 0xff]⟩,
            (e1000_read (e1000_read d cfg.E1000_REG_MAC_LOW).2 cfg.E1000_REG_MAC_HIGHT).2) := by
  unfold e1000_mac_address_read
  simp [he, e1000_read_eq, u8_and_ff]

/-- C7: on the no-EEPROM path, with `lo` and `hi` the 32-bit values that the card returns for
the reads of the MAC-low and MAC-high registers, `e1000_mac_address_read` returns the bytes
`[lo & 0xff, (lo >> 8) & 0xff, (lo >> 16) & 0xff, (lo >> 24) & 0xff, hi & 0xff,
(hi >> 8) & 0xff]`; the card sees these two reads and nothing else, so no write to the EEPROM
register; and a card that answers the same `lo` and a `hi` with the same lower 16 bits gives the
same address. -/
theorem C7_mac_from_registers (cfg : Config) (fuel : Nat) (d : Driver)
    (he : d._has_eeprom = false) :
    e1000_mac_address_read cfg fuel d =
      some (⟨[u32 (d.dev.rd d.dev.nreads) &&& 0xff,
              (u32 (d.dev.rd d.dev.nreads) >>> 8) &&& 0xff,
              (u32 (d.dev.rd d.dev.nreads) >>> 16) &&& 0xff,
              (u32 (d.dev.rd d.dev.nreads) >>> 24) &&& 0xff,
              u32 (d.dev.rd (d.dev.nreads + 1)) &&& 0xff,
              (u32 (d.dev.rd (d.dev.nreads + 1)) >>> 8) &&& 0xff]⟩,
            (e1000_read (e1000_read d cfg.E1000_REG_MAC_LOW).2 cfg.E1000_REG_MAC_HIGHT).2) ∧
    (e1000_read (e1000_read d cfg.E1000_REG_MAC_LOW).2 cfg.E1000_REG_MAC_HIGHT).2.dev.log =
      d.dev.log ++
        [RegAccess.read cfg.E1000_REG_MAC_LOW (u32 (d.dev.rd d.dev.nreads)),
         RegAccess.read cfg.E1000_REG_MAC_HIGHT (u32 (d.dev.rd (d.dev.nreads + 1)))] ∧
    writes_to (e1000_read (e1000_read d cfg.E1000_REG_MAC_LOW).2
        cfg.E1000_REG_MAC_HIGHT).2.dev.log cfg.E1000_REG_EEPROM =
      writes_to d.dev.log cfg.E1000_REG_EEPROM ∧
    (∀ d2 : Driver, d2._has_eeprom = false →
      u32 (d2.dev.rd d2.dev.nreads) = u32 (d.dev.rd d.dev.nreads) →
      u32 (d2.dev.rd (d2.dev.nreads + 1)) % 65536 = u32 (d.dev.rd (d.dev.nreads + 1)) % 65536 →
      Option.map (fun r => r.1) (e1000_mac_address_read cfg fuel d2) =
        Option.map (fun r => r.1) (e1000_mac_address_read cfg fuel d)) := by
  have hlog : (e1000_read (e1000_read d cfg.E1000_REG_MAC_LOW).2
      cfg.E1000_REG_MAC_HIGHT).2.dev.log = d.dev.log ++
        [RegAccess.read cfg.E1000_REG_MAC_LOW (u32 (d.dev.rd d.dev.nreads)),
         RegAccess.read cfg.E1000_REG_MAC_HIGHT (u32 (d.dev.rd (d.dev.nreads + 1)))] := by
    simp [e1000_read_eq]
  refine ⟨mac_address_read_registers cfg fuel d he, hlog, ?_, ?_⟩
  · rw [hlog]
    simp [writes_to, List.filterMap_append]
  · intro d2 he2 hlo hhi
    rw [mac_address_read_registers cfg fuel d he, mac_address_read_registers cfg fuel d2 he2]
    obtain ⟨hb4, hb5⟩ := low_bytes_of_mod _ _ hhi
    simp only [Option.map_some', hlo, hb4, hb5]

/-- C7 with `0x12005452` in the MAC-low register and `0xffff5634` in the MAC-high register:
the address is `52:54:00:12:34:56`, and the upper half of the high register is dropped. -/
theorem C7_mac_from_registers_witness :
    example_register_driver._has_eeprom = false ∧
    Option.map (fun r => r.1.bytes)
        (e1000_mac_address_read (example_config 2 2) 0 example_register_driver) =
      some [0x52, 0x54, 0x00, 0x12, 0x34, 0x56] :=
  ⟨rfl,
   (congrArg (Option.map fun r => r.1.bytes)
      (C7_mac_from_registers (example_config 2 2) 0 example_register_driver rfl).1).trans rfl⟩

/-! ## EEPROM detection -/

theorem detect_loop_found (cfg : Config) (n : Nat) (d : Driver) :
    e1000_eeprom_detect_loop cfg n true d = (true, d) := by
  cases n <;> simp [e1000_eeprom_detect_loop]

theorem answer_has_shift (d d1 : Driver) (mask j : Nat) (hrd : d1.dev.rd = d.dev.rd)
    (hn : d1.dev.nreads = d.dev.nreads + 1) :
    answer_has d1 mask j = answer_has d mask (j + 1) := by
  simp only [answer_has, hrd, hn]
  rw [Nat.add_assoc, Nat.add_comm 1 j]

theorem reads_of_succ (d d1 : Driver) (offset m : Nat) (hrd : d1.dev.rd = d.dev.rd)
    (hn : d1.dev.nreads = d.dev.nreads + 1) :
    reads_of d offset (m + 1) =
      RegAccess.read offset (u32 (d.dev.rd d.dev.nreads)) :: reads_of d1 offset m := by
  simp only [reads_of, List.range_succ_eq_map, List.map_cons, List.map_map, hrd, hn]
  simp [Function.comp_def, Nat.add_assoc, Nat.add_comm 1]

/-- The polling loop of `e1000_eeprom_detect` with `n` iterations left: it makes `m ≤ n` reads
of the EEPROM register; either it answers true and the last of them is the first with bit
`0x10` set, or it answers false after `n` reads without that bit. -/
theorem detect_loop_spec (cfg : Config) (n : Nat) (d : Driver) :
    ∃ m, m ≤ n ∧
      (e1000_eeprom_detect_loop cfg n false d).2.dev.nreads = d.dev.nreads + m ∧
      (e1000_eeprom_detect_loop cfg n false d).2.dev.rd = d.dev.rd ∧
      (e1000_eeprom_detect_loop cfg n false d).2.dev.log =
        d.dev.log ++ reads_of d cfg.E1000_REG_EEPROM m ∧
      (((e1000_eeprom_detect_loop cfg n false d).1 = true ∧ 1 ≤ m ∧
          answer_has d 0x10 (m - 1) = true ∧ ∀ j, j + 1 < m → answer_has d 0x10 j = false) ∨
        ((e1000_eeprom_detect_loop cfg n false d).1 = false ∧ m = n ∧
          ∀ j, j < n → answer_has d 0x10 j = false)) := by
  induction n generalizing d with
  | zero =>
    refine ⟨0, Nat.le_refl 0, ?_, ?_, ?_, Or.inr ⟨?_, rfl, ?_⟩⟩
    · simp [e1000_eeprom_detect_loop]
    · simp [e1000_eeprom_detect_loop]
    · simp [e1000_eeprom_detect_loop, reads_of]
    · simp [e1000_eeprom_detect_loop]
    · intro j hj
      omega
  | succ n ih =>
    have hrd : (e1000_read d cfg.E1000_REG_EEPROM).2.dev.rd = d.dev.rd := by
      simp [e1000_read_eq]
    have hn : (e1000_read d cfg.E1000_REG_EEPROM).2.dev.nreads = d.dev.nreads + 1 := by
      simp [e1000_read_eq]
    have hlog : (e1000_read d cfg.E1000_REG_EEPROM).2.dev.log =
        d.dev.log ++ [RegAccess.read cfg.E1000_REG_EEPROM (u32 (d.dev.rd d.dev.nreads))] := by
      simp [e1000_read_eq]
    have hv : (e1000_read d cfg.E1000_REG_EEPROM).1 = u32 (d.dev.rd d.dev.nreads) := by
      simp [e1000_read_eq]
    have h0 : answer_has d 0x10 0 = (u32 (d.dev.rd d.dev.nreads) &&& 0x10 != 0) := by
      simp [answer_has]
    by_cases hb : u32 (d.dev.rd d.dev.nreads) &&& 0x10 ≠ 0
    · have hstep : e1000_eeprom_detect_loop cfg (n + 1) false d =
          (true, (e1000_read d cfg.E1000_REG_EEPROM).2) := by
        simp only [e1000_eeprom_detect_loop, hv]
        simp [hb, detect_loop_found]
      refine ⟨1, by omega, ?_, ?_, ?_, Or.inl ⟨?_, Nat.le_refl 1, ?_, ?_⟩⟩
      · rw [hstep, hn]
      · rw [hstep, hrd]
      · rw [hstep, hlog]
        rfl
      · rw [hstep]
      · rw [h0]
        simpa using hb
      · intro j hj
        omega
    · have hstep : e1000_eeprom_detect_loop cfg (n + 1) false d =
          e1000_eeprom_detect_loop cfg n false (e1000_read d cfg.E1000_REG_EEPROM).2 := by
        simp only [e1000_eeprom_detect_loop, hv]
        simp [hb]
      have hfirst : answer_has d 0x10 0 = false := by
        rw [h0]
        simpa using hb
      obtain ⟨m, hm, hnr, hrd2, hlog2, hcase⟩ := ih (e1000_read d cfg.E1000_REG_EEPROM).2
      refine ⟨m + 1, by omega, ?_, ?_, ?_, ?_⟩
      · rw [hstep, hnr, hn]
        omega
      · rw [hstep, hrd2, hrd]
      · rw [hstep, hlog2, hlog, reads_of_succ d _ _ m hrd hn]
        simp
      · rcases hcase with ⟨hres, hm1, hlast, hbefore⟩ | ⟨hres, hmn, hall⟩
        · refine Or.inl ⟨by rw [hstep]; exact hres, by omega, ?_, ?_⟩
          · rw [answer_has_shift d _ 0x10 (m - 1) hrd hn] at hlast
            have e : m - 1 + 1 = m + 1 - 1 := by omega
            rw [← e]
            exact hlast
          · intro j hj
            cases j with
            | zero => exact hfirst
            | succ j =>
              rw [← answer_has_shift d _ 0x10 j hrd hn]
              exact hbefore j (by omega)
        · refine Or.inr ⟨by rw [hstep]; exact hres, by omega, ?_⟩
          intro j hj
          cases j with
          | zero => exact hfirst
          | succ j =>
            rw [← answer_has_shift d _ 0x10 j hrd hn]
            exact hall j (by omega)

theorem answer_has_after_write (d : Driver) (offset value mask k : Nat) :
    answer_has (e1000_write d offset value) mask k = answer_has d mask k := by
  simp [answer_has, e1000_write_eq]

theorem reads_of_after_write (d : Driver) (offset value r m : Nat) :
    reads_of (e1000_write d offset value) r m = reads_of d r m := by
  simp [reads_of, e1000_write_eq]

/-- The result of `e1000_eeprom_detect` in terms of the answers of the card. -/
theorem eeprom_detect_iff (cfg : Config) (d : Driver) :
    (e1000_eeprom_detect cfg d).1 = true ↔ ∃ k, k < 1000 ∧ answer_has d 0x10 k = true := by
  obtain ⟨m, hm, -, -, -, hcase⟩ :=
    detect_loop_spec cfg 1000 (e1000_write d cfg.E1000_REG_EEPROM 0x1)
  simp only [answer_has_after_write] at hcase
  simp only [e1000_eeprom_detect]
  constructor
  · intro hres
    rcases hcase with ⟨-, hm1, hlast, -⟩ | ⟨hfalse, -, -⟩
    · exact ⟨m - 1, by omega, hlast⟩
    · rw [hres] at hfalse
      exact absurd hfalse (by simp)
  · rintro ⟨k, hk, hbit⟩
    rcases hcase with ⟨htrue, -, -, -⟩ | ⟨-, -, hall⟩
    · exact htrue
    · rw [hall k hk] at hbit
      exact absurd hbit (by simp)

/-- C8: `e1000_eeprom_detect` returns true exactly when one of the first 1000 answers of the
card to reads of the EEPROM register has bit `0x10` set.  The card sees one write of `0x1` to
the EEPROM register and then `m ≤ 1000` reads of it and nothing else; no read before the last
has the bit set; when the result is true the last read is the first with the bit set, and when
it is false all 1000 reads were made.  The function is total, and two cards that give the same
first 1000 answers get the same result. -/
theorem C8_eeprom_detect (cfg : Config) (d : Driver) :
    ((e1000_eeprom_detect cfg d).1 = true ↔
      ∃ k, k < 1000 ∧ answer_has d 0x10 k = true) ∧
    (∃ m, m ≤ 1000 ∧
      (e1000_eeprom_detect cfg d).2.dev.nreads = d.dev.nreads + m ∧
      (e1000_eeprom_detect cfg d).2.dev.log =
        d.dev.log ++ RegAccess.write cfg.E1000_REG_EEPROM 0x1 ::
          reads_of d cfg.E1000_REG_EEPROM m ∧
      (∀ j, j + 1 < m → answer_has d 0x10 j = false) ∧
      ((e1000_eeprom_detect cfg d).1 = true → 1 ≤ m ∧ answer_has d 0x10 (m - 1) = true) ∧
      ((e1000_eeprom_detect cfg d).1 = false → m = 1000)) ∧
    (∀ d2 : Driver,
      (∀ k, k < 1000 →
        u32 (d2.dev.rd (d2.dev.nreads + k)) = u32 (d.dev.rd (d.dev.nreads + k))) →
      (e1000_eeprom_detect cfg d2).1 = (e1000_eeprom_detect cfg d).1) := by
  refine ⟨eeprom_detect_iff cfg d, ?_, ?_⟩
  · obtain ⟨m, hm, hnr, -, hlog, hcase⟩ :=
      detect_loop_spec cfg 1000 (e1000_write d cfg.E1000_REG_EEPROM 0x1)
    simp only [answer_has_after_write, reads_of_after_write] at hcase hlog
    have hnr0 : (e1000_write d cfg.E1000_REG_EEPROM 0x1).dev.nreads = d.dev.nreads := by
      simp [e1000_write_eq]
    have hlog0 : (e1000_write d cfg.E1000_REG_EEPROM 0x1).dev.log =
        d.dev.log ++ [RegAccess.write cfg.E1000_REG_EEPROM 0x1] := by
      simp [e1000_write_eq]
    rw [hnr0] at hnr
    rw [hlog0] at hlog
    refine ⟨m, hm, hnr, ?_, ?_, ?_, ?_⟩
    · simp only [e1000_eeprom_detect]
      rw [hlog]
      simp
    · intro j hj
      rcases hcase with ⟨-, -, -, hbefore⟩ | ⟨-, hmn, hall⟩
      · exact hbefore j hj
      · exact hall j (by omega)
    · intro hres
      simp only [e1000_eeprom_detect] at hres
      rcases hcase with ⟨-, hm1, hlast, -⟩ | ⟨hfalse, -, -⟩
      · exact ⟨hm1, hlast⟩
      · rw [hres] at hfalse
        exact absurd hfalse (by simp)
    · intro hres
      simp only [e1000_eeprom_detect] at hres
      rcases hcase with ⟨htrue, -, -, -⟩ | ⟨-, hmn, -⟩
      · rw [hres] at htrue
        exact absurd htrue (by simp)
      · exact hmn
  · intro d2 hsame
    have hiff : ((e1000_eeprom_detect cfg d2).1 = true ↔ (e1000_eeprom_detect cfg d).1 = true) := by
      rw [eeprom_detect_iff, eeprom_detect_iff]
      constructor
      · rintro ⟨k, hk, hbit⟩
        exact ⟨k, hk, by simpa [answer_has, hsame k hk] using hbit⟩
      · rintro ⟨k, hk, hbit⟩
        exact ⟨k, hk, by simpa [answer_has, hsame k hk] using hbit⟩
    cases h1 : (e1000_eeprom_detect cfg d2).1 <;> cases h2 : (e1000_eeprom_detect cfg d).1
    · rfl
    · rw [h1, h2] at hiff
      exact absurd (hiff.mpr rfl) (by simp)
    · rw [h1, h2] at hiff
      exact absurd (hiff.mp rfl) (by simp)
    · rfl

/-- C8 with a card that shows the done bit from its third answer on: detection succeeds. -/
theorem C8_eeprom_detect_witness :
    answer_has example_slow_eeprom 0x10 2 = true ∧
    (e1000_eeprom_detect (example_config 2 2) example_slow_eeprom).1 = true :=
  ⟨by rfl,
   (C8_eeprom_detect (example_config 2 2) example_slow_eeprom).1.mpr ⟨2, by decide, by rfl⟩⟩

/-! ## Descriptor and buffer pairing -/

theorem rx_address_set (xs : List E1000RXDescriptor) (i j : Nat) (v : E1000RXDescriptor)
    (hv : v.address = (xs.getD i default).address) :
    ((xs.set i v).getD j default).address = (xs.getD j default).address := by
  by_cases hij : i = j
  · subst hij
    by_cases hlt : i < xs.length
    · rw [getD_set_self xs i v default hlt, hv]
    · rw [List.set_eq_of_length_le (by omega)]
  · rw [getD_set_ne xs i j v default hij]

theorem tx_address_set (xs : List E1000TXDescriptor) (i j : Nat) (v : E1000TXDescriptor)
    (hv : v.address = (xs.getD i default).address) :
    ((xs.set i v).getD j default).address = (xs.getD j default).address := by
  by_cases hij : i = j
  · subst hij
    by_cases hlt : i < xs.length
    · rw [getD_set_self xs i v default hlt, hv]
    · rw [List.set_eq_of_length_le (by omega)]
  · rw [getD_set_ne xs i j v default hij]

theorem receive_packet_pairing (cfg : Config) (d : Driver) (buffer size : Nat) :
    SamePairing d (e1000_receive_packet cfg d buffer size).2 := by
  rw [receive_packet_eq]
  refine ⟨rfl, rfl, ?_, fun _ => rfl⟩
  intro i
  exact rx_address_set _ _ _ _ rfl

theorem send_packet_pairing (cfg : Config) (d : Driver) (buffer size : Nat) :
    SamePairing d (e1000_send_packet cfg d buffer size).2 := by
  refine ⟨?_, ?_, ?_, ?_⟩
  · simp [e1000_send_packet, e1000_write_eq]
  · simp [e1000_send_packet, e1000_write_eq]
  · intro i
    simp [e1000_send_packet, e1000_write_eq]
  · intro i
    rw [send_packet_descriptors]
    refine (tx_address_set _ _ i _ ?_).trans
      ((tx_address_set _ _ i _ ?_).trans (tx_address_set _ _ i _ ?_)) <;> rfl

theorem interrupt_handler_pairing (cfg : Config) (d : Driver) :
    SamePairing d (e1000_interrupt_handler cfg d) := by
  unfold e1000_interrupt_handler
  simp only [e1000_write_eq, e1000_read_eq]
  split <;> exact ⟨rfl, rfl, fun _ => rfl, fun _ => rfl⟩

theorem run_calls_pairing (cfg : Config) (calls : List Call) (d : Driver) :
    SamePairing d (run_calls cfg d calls) := by
  induction calls generalizing d with
  | nil => exact ⟨rfl, rfl, fun _ => rfl, fun _ => rfl⟩
  | cons c calls ih =>
    have hstep : SamePairing d (call_step cfg d c) := by
      cases c with
      | receive buffer size => exact receive_packet_pairing cfg d buffer size
      | send buffer size => exact send_packet_pairing cfg d buffer size
      | interrupt => exact interrupt_handler_pairing cfg d
    obtain ⟨h1, h2, h3, h4⟩ := ih (call_step cfg d c)
    obtain ⟨g1, g2, g3, g4⟩ := hstep
    simp only [run_calls, List.foldl_cons] at h1 h2 h3 h4 ⊢
    exact ⟨h1.trans g1, h2.trans g2, fun i => (h3 i).trans (g3 i), fun i => (h4 i).trans (g4 i)⟩

/-- What `e1000_enable_interrupt` leaves alone: both rings and both cursors. -/
theorem enable_interrupt_frame (cfg : Config) (d : Driver) :
    (e1000_enable_interrupt cfg d)._rx_buffers = d._rx_buffers ∧
    (e1000_enable_interrupt cfg d)._rx_descriptors = d._rx_descriptors ∧
    (e1000_enable_interrupt cfg d)._tx_buffers = d._tx_buffers ∧
    (e1000_enable_interrupt cfg d)._tx_descriptors = d._tx_descriptors ∧
    (e1000_enable_interrupt cfg d)._current_rx_descriptors = d._current_rx_descriptors ∧
    (e1000_enable_interrupt cfg d)._current_tx_descriptors = d._current_tx_descriptors := by
  simp [e1000_enable_interrupt, e1000_write_eq, e1000_read_eq]

/-- The rings right after initialisation: every descriptor is paired with its buffer handle. -/
theorem rings_initialized_pairing (cfg : Config) (rx : RxResources) (tx : TxResources)
    (d : Driver) :
    (∀ i, i < cfg.E1000_NUM_RX_DESC →
      (rings_initialized cfg rx tx d)._rx_buffers.getD i 0 = rx.buffer i ∧
      ((rings_initialized cfg rx tx d)._rx_descriptors.getD i default).address =
        cfg.virtual_to_physical (rx.buffer i)) ∧
    (∀ i, i < cfg.E1000_NUM_TX_DESC →
      (rings_initialized cfg rx tx d)._tx_buffers.getD i 0 = tx.buffer i ∧
      ((rings_initialized cfg rx tx d)._tx_descriptors.getD i default).address =
        cfg.virtual_to_physical (tx.buffer i)) := by
  have hrx := (initialize_rx_spec cfg rx d).2.2
  have htx := (initialize_tx_spec cfg tx (e1000_initialize_rx cfg rx d)).2.2
  obtain ⟨f1, f2, -, -⟩ := initialize_tx_frame cfg tx (e1000_initialize_rx cfg rx d)
  obtain ⟨g1, g2, g3, g4, -, -⟩ :=
    enable_interrupt_frame cfg (e1000_initialize_tx cfg tx (e1000_initialize_rx cfg rx d))
  unfold rings_initialized
  constructor
  · intro i hi
    rw [g1, g2, f1, f2, (hrx i hi).1, (hrx i hi).2]
    exact ⟨rfl, rfl⟩
  · intro i hi
    rw [g3, g4, (htx i hi).1, (htx i hi).2]
    exact ⟨rfl, rfl⟩

/-- C9: in every state reached from the initialised rings by any sequence of
`e1000_receive_packet`, `e1000_send_packet` and `e1000_interrupt_handler` calls, for every index
`i` inside a ring the address field of descriptor `i` is the physical address of buffer handle
`i`, the buffer handles are the ones allocated at initialisation, and both arrays of buffer
handles are unchanged. -/
theorem C9_pairing_invariant (cfg : Config) (rx : RxResources) (tx : TxResources) (d : Driver)
    (calls : List Call) (i : Nat) :
    (i < cfg.E1000_NUM_RX_DESC →
      ((run_calls cfg (rings_initialized cfg rx tx d) calls)._rx_descriptors.getD i default).address
        = cfg.virtual_to_physical
            ((run_calls cfg (rings_initialized cfg rx tx d) calls)._rx_buffers.getD i 0) ∧
      (run_calls cfg (rings_initialized cfg rx tx d) calls)._rx_buffers.getD i 0 = rx.buffer i) ∧
    (i < cfg.E1000_NUM_TX_DESC →
      ((run_calls cfg (rings_initialized cfg rx tx d) calls)._tx_descriptors.getD i default).address
        = cfg.virtual_to_physical
            ((run_calls cfg (rings_initialized cfg rx tx d) calls)._tx_buffers.getD i 0) ∧
      (run_calls cfg (rings_initialized cfg rx tx d) calls)._tx_buffers.getD i 0 = tx.buffer i) ∧
    (run_calls cfg (rings_initialized cfg rx tx d) calls)._rx_buffers =
      (rings_initialized cfg rx tx d)._rx_buffers ∧
    (run_calls cfg (rings_initialized cfg rx tx d) calls)._tx_buffers =
      (rings_initialized cfg rx tx d)._tx_buffers := by
  obtain ⟨h1, h2, h3, h4⟩ := run_calls_pairing cfg calls (rings_initialized cfg rx tx d)
  obtain ⟨irx, itx⟩ := rings_initialized_pairing cfg rx tx d
  refine ⟨?_, ?_, h1, h2⟩
  · intro hi
    rw [h3 i, h1, (irx i hi).1, (irx i hi).2]
    exact ⟨rfl, rfl⟩
  · intro hi
    rw [h4 i, h2, (itx i hi).1, (itx i hi).2]
    exact ⟨rfl, rfl⟩

/-- C9 on rings of two slots after a receive, a send, an interrupt and another receive:
receive descriptor 1 still points at the physical address of receive buffer handle 1, which is
still the second allocation. -/
theorem C9_pairing_invariant_witness :
    1 < (example_config 2 2).E1000_NUM_RX_DESC ∧
    ((run_calls (example_config 2 2)
        (rings_initialized (example_config 2 2) example_rx example_tx
          (boot (fun _ => 0) (fun _ => 0)))
        [Call.receive 0x9000 64, Call.send 0x5000 2, Call.interrupt,
         Call.receive 0x9000 64])._rx_descriptors.getD 1 default).address =
      (example_config 2 2).virtual_to_physical
        ((run_calls (example_config 2 2)
          (rings_initialized (example_config 2 2) example_rx example_tx
            (boot (fun _ => 0) (fun _ => 0)))
          [Call.receive 0x9000 64, Call.send 0x5000 2, Call.interrupt,
           Call.receive 0x9000 64])._rx_buffers.getD 1 0) ∧
    (run_calls (example_config 2 2)
        (rings_initialized (example_config 2 2) example_rx example_tx
          (boot (fun _ => 0) (fun _ => 0)))
        [Call.receive 0x9000 64, Call.send 0x5000 2, Call.interrupt,
         Call.receive 0x9000 64])._rx_buffers.getD 1 0 = example_rx.buffer 1 :=
  ⟨by decide,
   (C9_pairing_invariant (example_config 2 2) example_rx example_tx
      (boot (fun _ => 0) (fun _ => 0))
      [Call.receive 0x9000 64, Call.send 0x5000 2, Call.interrupt, Call.receive 0x9000 64]
      1).1 (by decide)⟩

/-! ## Ownership of a receive slot -/

theorem can_read_eq (d : Driver) : Net.can_read d = rx_ready d d._current_rx_descriptors := rfl

/-- After a receive call the slot that was at the cursor is not ready. -/
theorem rx_ready_after_receive (cfg : Config) (d : Driver) (buffer size : Nat) :
    rx_ready (e1000_receive_packet cfg d buffer size).2 d._current_rx_descriptors = false := by
  rw [receive_packet_eq, rx_ready_eq]
  show (((d._rx_descriptors.set d._current_rx_descriptors _).getD
    d._current_rx_descriptors default).status &&& 0x1 != 0) = false
  rw [rx_status_set_self _ _ _ rfl]
  rfl

/-- A receive call leaves the readiness of every slot but the one at the cursor as it was. -/
theorem rx_ready_receive_other (cfg : Config) (d : Driver) (buffer size i : Nat)
    (h : d._current_rx_descriptors ≠ i) :
    rx_ready (e1000_receive_packet cfg d buffer size).2 i = rx_ready d i := by
  rw [receive_packet_eq, rx_ready_eq, rx_ready_eq]
  show (((d._rx_descriptors.set d._current_rx_descriptors _).getD i default).status
    &&& 0x1 != 0) = _
  rw [getD_set_ne _ _ _ _ _ h]

/-- A fill of slot `j` leaves the readiness of every other slot as it was. -/
theorem rx_ready_fill_other (d : Driver) (i j : Nat) (packet : List Nat) (h : j ≠ i) :
    rx_ready (hw_rx_fill d j packet) i = rx_ready d i := by
  rw [rx_ready_eq, rx_ready_eq]
  show (((d._rx_descriptors.set j _).getD i default).status &&& 0x1 != 0) = _
  rw [getD_set_ne _ _ _ _ _ h]

/-- In a run whose receive calls are all made when `Net::can_read` answers true, a slot that
is pending (claimed and not filled since) and not ready is never claimed again before a fill. -/
theorem guarded_run_no_double_claim (cfg : Config) (i : Nat) (evs : List RxEvent) (d : Driver)
    (pending : Bool) (hp : pending = true → rx_ready d i = false)
    (hg : rx_guarded cfg d evs = true) :
    double_claim cfg i pending d evs = false := by
  induction evs generalizing d pending with
  | nil => rfl
  | cons e evs ih =>
    cases e with
    | receive buffer size =>
      simp only [rx_guarded, Bool.and_eq_true] at hg
      obtain ⟨hready, hrest⟩ := hg
      simp only [double_claim]
      by_cases hc : d._current_rx_descriptors = i
      · rw [if_pos hc]
        have hnp : pending = false := by
          cases pending with
          | false => rfl
          | true =>
            have h1 := hp rfl
            rw [can_read_eq, hc, h1] at hready
            exact absurd hready (by simp)
        have hnext : rx_ready (e1000_receive_packet cfg d buffer size).2 i = false := by
          rw [← hc]
          exact rx_ready_after_receive cfg d buffer size
        rw [hnp, ih _ true (fun _ => hnext) hrest]
        rfl
      · rw [if_neg hc]
        apply ih _ pending _ hrest
        intro hpt
        rw [rx_ready_receive_other cfg d buffer size i hc]
        exact hp hpt
    | fill j packet =>
      simp only [rx_guarded] at hg
      simp only [double_claim]
      by_cases hj : j = i
      · rw [if_pos hj]
        exact ih _ false (fun h => absurd h (by simp)) hg
      · rw [if_neg hj]
        apply ih _ pending _ hg
        intro hpt
        rw [rx_ready_fill_other d i j packet hj]
        exact hp hpt

/-- C10, as the code has it: for every receive slot `i` and every run of `e1000_receive_packet`
calls and hardware fills in which each receive call is made when `Net::can_read` answers true,
no receive call claims slot `i` twice without a fill of slot `i` between the two claims. -/
theorem C10_guarded_alternation (cfg : Config) (d : Driver) (evs : List RxEvent) (i : Nat)
    (hg : rx_guarded cfg d evs = true) :
    double_claim cfg i false d evs = false :=
  guarded_run_no_double_claim cfg i evs d false (fun h => absurd h (by simp)) hg

/-- C10 on a ring of two slots right after set-up: two receives, a fill of slot 0 and a third
receive are all made with `Net::can_read` true, and slot 0 is not claimed twice in a row. -/
theorem C10_guarded_alternation_witness :
    rx_guarded (example_config 2 2) example_rx_ring
      [RxEvent.receive 0x9000 64, RxEvent.receive 0x9000 64, RxEvent.fill 0 [1, 2, 3],
       RxEvent.receive 0x9000 64] = true ∧
    double_claim (example_config 2 2) 0 false example_rx_ring
      [RxEvent.receive 0x9000 64, RxEvent.receive 0x9000 64, RxEvent.fill 0 [1, 2, 3],
       RxEvent.receive 0x9000 64] = false :=
  ⟨by rfl,
   C10_guarded_alternation (example_config 2 2) example_rx_ring
     [RxEvent.receive 0x9000 64, RxEvent.receive 0x9000 64, RxEvent.fill 0 [1, 2, 3],
      RxEvent.receive 0x9000 64] 0 (by rfl)⟩

/-- C10 as stated fails: on a ring of two slots right after set-up, three calls of
`e1000_receive_packet` with no hardware fill at all claim slot 0 twice (the first and the third
call), and the third call is made while `Net::can_read` answers false. -/
theorem C10_double_claim_without_fill :
    double_claim (example_config 2 2) 0 false example_rx_ring
      [RxEvent.receive 0x9000 64, RxEvent.receive 0x9000 64, RxEvent.receive 0x9000 64] = true ∧
    (rx_run (example_config 2 2) example_rx_ring
      [RxEvent.receive 0x9000 64, RxEvent.receive 0x9000 64])._current_rx_descriptors = 0 ∧
    Net.can_read (rx_run (example_config 2 2) example_rx_ring
      [RxEvent.receive 0x9000 64, RxEvent.receive 0x9000 64]) = false := by
  refine ⟨by rfl, by rfl, by rfl⟩

/-! ## Interrupt handler -/

/-- What `e1000_interrupt_handler` leaves alone: both rings and both cursors. -/
theorem interrupt_handler_frame (cfg : Config) (d : Driver) :
    (e1000_interrupt_handler cfg d)._rx_descriptors = d._rx_descriptors ∧
    (e1000_interrupt_handler cfg d)._tx_descriptors = d._tx_descriptors ∧
    (e1000_interrupt_handler cfg d)._rx_buffers = d._rx_buffers ∧
    (e1000_interrupt_handler cfg d)._tx_buffers = d._tx_buffers ∧
    (e1000_interrupt_handler cfg d)._current_rx_descriptors = d._current_rx_descriptors ∧
    (e1000_interrupt_handler cfg d)._current_tx_descriptors = d._current_tx_descriptors := by
  unfold e1000_interrupt_handler
  simp only [e1000_write_eq, e1000_read_eq]
  split <;> exact ⟨rfl, rfl, rfl, rfl, rfl, rfl⟩

/-- The register accesses of `e1000_interrupt_handler`, in order. -/
theorem interrupt_handler_log (cfg : Config) (d : Driver) :
    (e1000_interrupt_handler cfg d).dev.log =
      d.dev.log ++
        (RegAccess.write cfg.E1000_REG_IMASK 0x0 ::
         RegAccess.read cfg.E1000_REG_STATUS (u32 (d.dev.rd d.dev.nreads)) ::
         (if u32 (d.dev.rd d.dev.nreads) &&& 4 ≠ 0 then
            [RegAccess.read cfg.E1000_REG_CONTROL (u32 (d.dev.rd (d.dev.nreads + 1))),
             RegAccess.write cfg.E1000_REG_CONTROL
               (u32 (d.dev.rd (d.dev.nreads + 1)) ||| cfg.E1000_CTL_START_LINK)]
          else [])) := by
  unfold e1000_interrupt_handler
  simp only [e1000_write_eq, e1000_read_eq]
  split <;> simp

/-- C12: for every device state, `e1000_interrupt_handler` first writes 0 to the
interrupt-mask register and then reads the status register; when status bit value 4 is set it
reads the control register and writes back the value read with `E1000_CTL_START_LINK` or-ed in,
every bit of the value read being kept, and when the bit is clear it does nothing more.  With the
control register distinct from the interrupt-mask register, the only value it writes to the
interrupt-mask register is 0, and the control register is written exactly when the bit is set.
No ring cursor and no descriptor changes. -/
theorem C12_interrupt_handler (cfg : Config) (d : Driver)
    (hreg : cfg.E1000_REG_CONTROL ≠ cfg.E1000_REG_IMASK) :
    (e1000_interrupt_handler cfg d).dev.log =
      d.dev.log ++
        (RegAccess.write cfg.E1000_REG_IMASK 0x0 ::
         RegAccess.read cfg.E1000_REG_STATUS (u32 (d.dev.rd d.dev.nreads)) ::
         (if u32 (d.dev.rd d.dev.nreads) &&& 4 ≠ 0 then
            [RegAccess.read cfg.E1000_REG_CONTROL (u32 (d.dev.rd (d.dev.nreads + 1))),
             RegAccess.write cfg.E1000_REG_CONTROL
               (u32 (d.dev.rd (d.dev.nreads + 1)) ||| cfg.E1000_CTL_START_LINK)]
          else [])) ∧
    writes_to (e1000_interrupt_handler cfg d).dev.log cfg.E1000_REG_IMASK =
      writes_to d.dev.log cfg.E1000_REG_IMASK ++ [0] ∧
    writes_to (e1000_interrupt_handler cfg d).dev.log cfg.E1000_REG_CONTROL =
      writes_to d.dev.log cfg.E1000_REG_CONTROL ++
        (if u32 (d.dev.rd d.dev.nreads) &&& 4 ≠ 0 then
           [u32 (d.dev.rd (d.dev.nreads + 1)) ||| cfg.E1000_CTL_START_LINK]
         else []) ∧
    (∀ j, (u32 (d.dev.rd (d.dev.nreads + 1)) ||| cfg.E1000_CTL_START_LINK).testBit j =
      ((u32 (d.dev.rd (d.dev.nreads + 1))).testBit j || cfg.E1000_CTL_START_LINK.testBit j)) ∧
    (e1000_interrupt_handler cfg d)._rx_descriptors = d._rx_descriptors ∧
    (e1000_interrupt_handler cfg d)._tx_descriptors = d._tx_descriptors ∧
    (e1000_interrupt_handler cfg d)._current_rx_descriptors = d._current_rx_descriptors ∧
    (e1000_interrupt_handler cfg d)._current_tx_descriptors = d._current_tx_descriptors := by
  have hlog := interrupt_handler_log cfg d
  obtain ⟨f1, f2, -, -, f5, f6⟩ := interrupt_handler_frame cfg d
  have hne : cfg.E1000_REG_IMASK ≠ cfg.E1000_REG_CONTROL := fun h => hreg h.symm
  refine ⟨hlog, ?_, ?_, fun j => Nat.testBit_or _ _ j, f1, f2, f5, f6⟩
  · rw [hlog]
    by_cases hb : u32 (d.dev.rd d.dev.nreads) &&& 4 ≠ 0
    · simp [writes_to, List.filterMap_append, List.filterMap_cons, hb, hreg]
    · simp [writes_to, List.filterMap_append, List.filterMap_cons, hb]
  · rw [hlog]
    by_cases hb : u32 (d.dev.rd d.dev.nreads) &&& 4 ≠ 0
    · simp [writes_to, List.filterMap_append, List.filterMap_cons, hb, hne]
    · simp [writes_to, List.filterMap_append, List.filterMap_cons, hb, hne]

/-- C12 with a card that reports a link-status change and a control value of `0x100201`: the
handler writes 0 to the interrupt-mask register and `0x100241` to the control register. -/
theorem C12_interrupt_handler_witness :
    (example_config 2 2).E1000_REG_CONTROL ≠ (example_config 2 2).E1000_REG_IMASK ∧
    writes_to (e1000_interrupt_handler (example_config 2 2) example_link_change).dev.log
      (example_config 2 2).E1000_REG_IMASK = [0] ∧
    writes_to (e1000_interrupt_handler (example_config 2 2) example_link_change).dev.log
      (example_config 2 2).E1000_REG_CONTROL = [0x100241] :=
  ⟨by decide,
   (C12_interrupt_handler (example_config 2 2) example_link_change (by decide)).2.1.trans
     (by rfl),
   (C12_interrupt_handler (example_config 2 2) example_link_change (by decide)).2.2.1.trans
     (by rfl)⟩

/-! ## Cursors stay inside the rings -/

theorem receive_packet_in_range (cfg : Config) (d : Driver) (buffer size : Nat)
    (h : RingsInRange cfg d) : RingsInRange cfg (e1000_receive_packet cfg d buffer size).2 := by
  obtain ⟨h1, h2, h3, h4, h5, h6⟩ := h
  rw [receive_packet_eq]
  refine ⟨Nat.mod_lt _ (by omega), h2, ?_, h4, h5, h6⟩
  show (d._rx_descriptors.set _ _).length = _
  rw [List.length_set]
  exact h3

theorem send_packet_in_range (cfg : Config) (d : Driver) (buffer size : Nat)
    (h : RingsInRange cfg d) : RingsInRange cfg (e1000_send_packet cfg d buffer size).2 := by
  obtain ⟨h1, h2, h3, h4, h5, h6⟩ := h
  obtain ⟨g1, g2, -, -⟩ := send_packet_pairing cfg d buffer size
  refine ⟨?_, ?_, ?_, ?_, ?_, ?_⟩
  · simpa [e1000_send_packet, e1000_write_eq] using h1
  · rw [send_packet_cursor]
    exact Nat.mod_lt _ (by omega)
  · simpa [e1000_send_packet, e1000_write_eq] using h3
  · rw [g1]
    exact h4
  · rw [send_packet_length]
    exact h5
  · rw [g2]
    exact h6

theorem interrupt_handler_in_range (cfg : Config) (d : Driver) (h : RingsInRange cfg d) :
    RingsInRange cfg (e1000_interrupt_handler cfg d) := by
  obtain ⟨f1, f2, f3, f4, f5, f6⟩ := interrupt_handler_frame cfg d
  unfold RingsInRange
  rw [f1, f2, f3, f4, f5, f6]
  exact h

theorem run_calls_in_range (cfg : Config) (calls : List Call) (d : Driver)
    (h : RingsInRange cfg d) : RingsInRange cfg (run_calls cfg d calls) := by
  induction calls generalizing d with
  | nil => exact h
  | cons c calls ih =>
    have hstep : RingsInRange cfg (call_step cfg d c) := by
      cases c with
      | receive buffer size => exact receive_packet_in_range cfg d buffer size h
      | send buffer size => exact send_packet_in_range cfg d buffer size h
      | interrupt => exact interrupt_handler_in_range cfg d h
    have := ih (call_step cfg d c) hstep
    simpa [run_calls] using this

/-- Right after initialisation, from statics that hold cursor 0, both rings are in range. -/
theorem rings_initialized_in_range (cfg : Config) (rx : RxResources) (tx : TxResources)
    (d : Driver) (hrx : 0 < cfg.E1000_NUM_RX_DESC) (htx : 0 < cfg.E1000_NUM_TX_DESC)
    (h0 : d._current_rx_descriptors = 0) (h1 : d._current_tx_descriptors = 0) :
    RingsInRange cfg (rings_initialized cfg rx tx d) := by
  obtain ⟨rb, rd, -⟩ := initialize_rx_spec cfg rx d
  obtain ⟨-, -, rc1, rc2⟩ := initialize_rx_frame cfg rx d
  obtain ⟨tb, td, -⟩ := initialize_tx_spec cfg tx (e1000_initialize_rx cfg rx d)
  obtain ⟨f1, f2, f3, f4⟩ := initialize_tx_frame cfg tx (e1000_initialize_rx cfg rx d)
  obtain ⟨g1, g2, g3, g4, g5, g6⟩ :=
    enable_interrupt_frame cfg (e1000_initialize_tx cfg tx (e1000_initialize_rx cfg rx d))
  unfold rings_initialized RingsInRange
  rw [g1, g2, g3, g4, g5, g6, f1, f2, f3, f4, rc1, rc2, h0, h1]
  exact ⟨hrx, htx, rd, rb, td, tb⟩

/-- C14: with ring sizes that are positive and the cursors statically 0 before initialisation,
in every state reached from the initialised rings by any sequence of `e1000_receive_packet` and
`e1000_send_packet` calls (and of interrupts), the receive cursor is below `E1000_NUM_RX_DESC`
and the transmit cursor below `E1000_NUM_TX_DESC`; the four arrays have the size of their ring,
so the reads at the cursor by the data path and by `Net::can_read` and `Net::can_write` find an
element and never take the default of the total indexing. -/
theorem C14_cursors_in_range (cfg : Config) (rx : RxResources) (tx : TxResources) (d : Driver)
    (calls : List Call)
    (hrx : 0 < cfg.E1000_NUM_RX_DESC) (htx : 0 < cfg.E1000_NUM_TX_DESC)
    (h0 : d._current_rx_descriptors = 0) (h1 : d._current_tx_descriptors = 0) :
    (run_calls cfg (rings_initialized cfg rx tx d) calls)._current_rx_descriptors <
      cfg.E1000_NUM_RX_DESC ∧
    (run_calls cfg (rings_initialized cfg rx tx d) calls)._current_tx_descriptors <
      cfg.E1000_NUM_TX_DESC ∧
    (run_calls cfg (rings_initialized cfg rx tx d) calls)._rx_descriptors[
      (run_calls cfg (rings_initialized cfg rx tx d) calls)._current_rx_descriptors]? ≠ none ∧
    (run_calls cfg (rings_initialized cfg rx tx d) calls)._rx_buffers[
      (run_calls cfg (rings_initialized cfg rx tx d) calls)._current_rx_descriptors]? ≠ none ∧
    (run_calls cfg (rings_initialized cfg rx tx d) calls)._tx_descriptors[
      (run_calls cfg (rings_initialized cfg rx tx d) calls)._current_tx_descriptors]? ≠ none ∧
    (run_calls cfg (rings_initialized cfg rx tx d) calls)._tx_buffers[
      (run_calls cfg (rings_initialized cfg rx tx d) calls)._current_tx_descriptors]? ≠ none := by
  obtain ⟨c1, c2, l1, l2, l3, l4⟩ := run_calls_in_range cfg calls _
    (rings_initialized_in_range cfg rx tx d hrx htx h0 h1)
  refine ⟨c1, c2, ?_, ?_, ?_, ?_⟩
  · intro hnone
    rw [List.getElem?_eq_none_iff] at hnone
    omega
  · intro hnone
    rw [List.getElem?_eq_none_iff] at hnone
    omega
  · intro hnone
    rw [List.getElem?_eq_none_iff] at hnone
    omega
  · intro hnone
    rw [List.getElem?_eq_none_iff] at hnone
    omega

/-- C14 on rings of two slots after three receives and three sends: both cursors are at 1,
inside their rings. -/
theorem C14_cursors_in_range_witness :
    0 < (example_config 2 2).E1000_NUM_RX_DESC ∧
    (boot (fun _ => 0) (fun _ => 0))._current_rx_descriptors = 0 ∧
    (run_calls (example_config 2 2)
      (rings_initialized (example_config 2 2) example_rx example_tx
        (boot (fun _ => 0) (fun _ => 0)))
      [Call.receive 0x9000 64, Call.receive 0x9000 64, Call.receive 0x9000 64,
       Call.send 0x5000 2, Call.send 0x5000 2, Call.send 0x5000 2])._current_rx_descriptors <
      (example_config 2 2).E1000_NUM_RX_DESC ∧
    (run_calls (example_config 2 2)
      (rings_initialized (example_config 2 2) example_rx example_tx
        (boot (fun _ => 0) (fun _ => 0)))
      [Call.receive 0x9000 64, Call.receive 0x9000 64, Call.receive 0x9000 64,
       Call.send 0x5000 2, Call.send 0x5000 2, Call.send 0x5000 2])._current_tx_descriptors <
      (example_config 2 2).E1000_NUM_TX_DESC :=
  have h := C14_cursors_in_range (example_config 2 2) example_rx example_tx
    (boot (fun _ => 0) (fun _ => 0))
    [Call.receive 0x9000 64, Call.receive 0x9000 64, Call.receive 0x9000 64,
     Call.send 0x5000 2, Call.send 0x5000 2, Call.send 0x5000 2]
    (by decide) (by decide) rfl rfl
  ⟨by decide, rfl, h.1, h.2.1⟩

/-! ## Device node: the state query -/

/-- C11: `net_iocall` returns `SUCCESS` and stores the cached `_mac_address` into the caller's
state argument when the request is `IOCALL_NETWORK_GET_STATE`; for every other request it
returns `ERR_INAPPROPRIATE_CALL_FOR_DEVICE` and leaves the caller's argument as it was.  In both
cases the driver state after the call is the driver state of before the call: no cursor, no
descriptor, no buffer handle, and no register access seen by the card. -/
theorem C11_net_iocall (get_state : Nat) (d : Driver) (iocall : Nat)
    (args : IOCallNetworkSateAgs) :
    (net_iocall get_state d get_state args).1 = Result.SUCCESS ∧
    (net_iocall get_state d get_state args).2.1.mac_address = d._mac_address ∧
    (iocall ≠ get_state →
      (net_iocall get_state d iocall args).1 = Result.ERR_INAPPROPRIATE_CALL_FOR_DEVICE ∧
      (net_iocall get_state d iocall args).2.1 = args) ∧
    ((net_iocall get_state d iocall args).1 = Result.SUCCESS ↔ iocall = get_state) ∧
    (net_iocall get_state d iocall args).2.2 = d ∧
    (net_iocall get_state d iocall args).2.2._current_rx_descriptors =
      d._current_rx_descriptors ∧
    (net_iocall get_state d iocall args).2.2._current_tx_descriptors =
      d._current_tx_descriptors ∧
    (net_iocall get_state d iocall args).2.2._rx_descriptors = d._rx_descriptors ∧
    (net_iocall get_state d iocall args).2.2._tx_descriptors = d._tx_descriptors ∧
    (net_iocall get_state d iocall args).2.2.dev.log = d.dev.log := by
  have hd : (net_iocall get_state d iocall args).2.2 = d := by
    unfold net_iocall
    split <;> rfl
  refine ⟨by simp [net_iocall], by simp [net_iocall], ?_, ?_, hd, ?_, ?_, ?_, ?_, ?_⟩
  · intro hne
    simp [net_iocall, hne]
  · by_cases h : iocall = get_state
    · simp [net_iocall, h]
    · simp [net_iocall, h]
  · rw [hd]
  · rw [hd]
  · rw [hd]
  · rw [hd]
  · rw [hd]

/-- C11 with request numbers 7 for `IOCALL_NETWORK_GET_STATE` and 3 for another request: the
first hands out the cached address `52:54:00:12:34:56`, the second is refused and leaves the
argument zeroed. -/
theorem C11_net_iocall_witness :
    (3 : Nat) ≠ 7 ∧
    (net_iocall 7 example_named_driver 7 ⟨⟨[0, 0, 0, 0, 0, 0]⟩⟩).1 = Result.SUCCESS ∧
    (net_iocall 7 example_named_driver 7 ⟨⟨[0, 0, 0, 0, 0, 0]⟩⟩).2.1.mac_address =
      ⟨[0x52, 0x54, 0x00, 0x12, 0x34, 0x56]⟩ ∧
    (net_iocall 7 example_named_driver 3 ⟨⟨[0, 0, 0, 0, 0, 0]⟩⟩).1 =
      Result.ERR_INAPPROPRIATE_CALL_FOR_DEVICE ∧
    (net_iocall 7 example_named_driver 3 ⟨⟨[0, 0, 0, 0, 0, 0]⟩⟩).2.1 =
      ⟨⟨[0, 0, 0, 0, 0, 0]⟩⟩ :=
  have h := C11_net_iocall 7 example_named_driver 3 ⟨⟨[0, 0, 0, 0, 0, 0]⟩⟩
  ⟨by decide, h.1, h.2.1.trans (by rfl), (h.2.2.1 (by decide)).1, (h.2.2.1 (by decide)).2⟩

/-! ## EEPROM word read -/

theorem one_or_even (y s : Nat) (hs : 0 < s) (h : y % 2 ^ s = 0) : 1 ||| y = y + 1 := by
  have h1 : (1 : Nat) < 2 ^ s := Nat.one_lt_two_pow (by omega)
  have h2 : y = 2 ^ s * (y / 2 ^ s) := by
    have := Nat.div_add_mod y (2 ^ s)
    omega
  rw [Nat.or_comm, h2, ← Nat.mul_add_lt_is_or h1]

/-- The command word for the EEPROM variant with shift 8, computed in 32 bits. -/
theorem command_word_8 (a : Nat) : u32 (1 ||| u32 (u32 a <<< 8)) = (1 ||| (a <<< 8)) % 2 ^ 32 := by
  have e1 : 1 ||| u32 (u32 a <<< 8) = u32 (u32 a <<< 8) + 1 := by
    apply one_or_even _ 8 (by norm_num)
    simp only [u32, Nat.shiftLeft_eq]
    omega
  have e2 : 1 ||| (a <<< 8) = a <<< 8 + 1 := by
    apply one_or_even _ 8 (by norm_num)
    simp only [Nat.shiftLeft_eq]
    omega
  rw [e1, e2]
  simp only [u32, Nat.shiftLeft_eq]
  omega

/-- The command word for the EEPROM variant with shift 2, computed in 32 bits. -/
theorem command_word_2 (a : Nat) : u32 (1 ||| u32 (u32 a <<< 2)) = (1 ||| (a <<< 2)) % 2 ^ 32 := by
  have e1 : 1 ||| u32 (u32 a <<< 2) = u32 (u32 a <<< 2) + 1 := by
    apply one_or_even _ 2 (by norm_num)
    simp only [u32, Nat.shiftLeft_eq]
    omega
  have e2 : 1 ||| (a <<< 2) = a <<< 2 + 1 := by
    apply one_or_even _ 2 (by norm_num)
    simp only [Nat.shiftLeft_eq]
    omega
  rw [e1, e2]
  simp only [u32, Nat.shiftLeft_eq]
  omega

/-- The upper half of a 32-bit value, as `e1000_eeprom_read` extracts it. -/
theorem upper_half (v : Nat) (h : v < 2 ^ 32) :
    u16 ((v >>> 16) &&& 0xFFFF) = v / 2 ^ 16 := by
  have h1 : (v >>> 16) &&& 0xFFFF = (v >>> 16) % 2 ^ 16 := Nat.and_pow_two_sub_one_eq_mod _ 16
  rw [h1, u16, Nat.mod_mod, Nat.shiftRight_eq_div_pow]
  apply Nat.mod_eq_of_lt
  omega

theorem u32_lt (n : Nat) : u32 n < 2 ^ 32 := Nat.mod_lt _ (by norm_num)

/-- The busy-wait of `e1000_eeprom_read`: when answer number `k` is the first with a bit of
`mask` set and the polling budget exceeds `k`, the loop makes `k + 1` reads of the EEPROM
register and ends with that answer. -/
theorem eeprom_poll_spec (cfg : Config) (mask k : Nat) (fuel : Nat) (d : Driver)
    (hk : k < fuel)
    (hbefore : ∀ j, j < k → answer_has d mask j = false)
    (hdone : answer_has d mask k = true) :
    ∃ d2, e1000_eeprom_poll cfg mask fuel d = some (u32 (d.dev.rd (d.dev.nreads + k)), d2) ∧
      d2.dev.log = d.dev.log ++ reads_of d cfg.E1000_REG_EEPROM (k + 1) ∧
      d2.dev.nreads = d.dev.nreads + (k + 1) ∧
      d2.dev.rd = d.dev.rd ∧
      d2._has_eeprom = d._has_eeprom ∧
      d2._rx_descriptors = d._rx_descriptors ∧ d2._tx_descriptors = d._tx_descriptors ∧
      d2._current_rx_descriptors = d._current_rx_descriptors ∧
      d2._current_tx_descriptors = d._current_tx_descriptors := by
  induction k generalizing d fuel with
  | zero =>
    cases fuel with
    | zero => omega
    | succ f =>
      have hb : u32 (d.dev.rd d.dev.nreads) &&& mask ≠ 0 := by
        simpa [answer_has] using hdone
      refine ⟨(e1000_read d cfg.E1000_REG_EEPROM).2, ?_, ?_, ?_, ?_, ?_, ?_, ?_, ?_, ?_⟩
      · simp only [e1000_eeprom_poll, e1000_read_eq]
        simp [hb]
      · simp only [e1000_read_eq]
        rfl
      · simp [e1000_read_eq]
      · simp [e1000_read_eq]
      · simp [e1000_read_eq]
      · simp [e1000_read_eq]
      · simp [e1000_read_eq]
      · simp [e1000_read_eq]
      · simp [e1000_read_eq]
  | succ k ih =>
    cases fuel with
    | zero => omega
    | succ f =>
      have hrd : (e1000_read d cfg.E1000_REG_EEPROM).2.dev.rd = d.dev.rd := by
        simp [e1000_read_eq]
      have hn : (e1000_read d cfg.E1000_REG_EEPROM).2.dev.nreads = d.dev.nreads + 1 := by
        simp [e1000_read_eq]
      have hlog : (e1000_read d cfg.E1000_REG_EEPROM).2.dev.log =
          d.dev.log ++ [RegAccess.read cfg.E1000_REG_EEPROM (u32 (d.dev.rd d.dev.nreads))] := by
        simp [e1000_read_eq]
      have hb : ¬ (u32 (d.dev.rd d.dev.nreads) &&& mask ≠ 0) := by
        have := hbefore 0 (by omega)
        simpa [answer_has] using this
      have hstep : e1000_eeprom_poll cfg mask (f + 1) d =
          e1000_eeprom_poll cfg mask f (e1000_read d cfg.E1000_REG_EEPROM).2 := by
        simp only [e1000_eeprom_poll, e1000_read_eq]
        simp only [ne_eq, Decidable.not_not] at hb
        simp [hb]
      obtain ⟨d2, h1, h2, h3, h4, h5, h6, h7, h8, h9⟩ :=
        ih f (e1000_read d cfg.E1000_REG_EEPROM).2 (by omega)
          (fun j hj => by
            rw [answer_has_shift d _ mask j hrd hn]
            exact hbefore (j + 1) (by omega))
          (by
            rw [answer_has_shift d _ mask k hrd hn]
            exact hdone)
      refine ⟨d2, ?_, ?_, ?_, ?_, ?_, ?_, ?_, ?_, ?_⟩
      · rw [hstep, h1, hrd, hn, Nat.add_assoc, Nat.add_comm 1 k]
      · rw [h2, hlog, reads_of_succ d _ _ (k + 1) hrd hn]
        simp
      · rw [h3, hn]
        omega
      · rw [h4, hrd]
      · rw [h5]
        simp [e1000_read_eq]
      · rw [h6]
        simp [e1000_read_eq]
      · rw [h7]
        simp [e1000_read_eq]
      · rw [h8]
        simp [e1000_read_eq]
      · rw [h9]
        simp [e1000_read_eq]

theorem command_word_small (a s : Nat) (hs : s = 8 ∨ s = 2) (ha : a < 2 ^ (32 - s)) :
    (1 ||| (a <<< s)) % 2 ^ 32 = 1 ||| (a <<< s) := by
  apply Nat.mod_eq_of_lt
  rcases hs with h | h
  · subst h
    have e : 1 ||| (a <<< 8) = a <<< 8 + 1 := by
      apply one_or_even _ 8 (by norm_num)
      simp only [Nat.shiftLeft_eq]
      omega
    rw [e, Nat.shiftLeft_eq]
    norm_num at ha
    omega
  · subst h
    have e : 1 ||| (a <<< 2) = a <<< 2 + 1 := by
      apply one_or_even _ 2 (by norm_num)
      simp only [Nat.shiftLeft_eq]
      omega
    rw [e, Nat.shiftLeft_eq]
    norm_num at ha
    omega

/-- C13: for every address `a` and every card whose answer number `k` to the reads of the
EEPROM register is the first with the done bit set, `e1000_eeprom_read` (given a polling budget
above `k`) writes the command word `1 | (a << 8)` and waits for bit 4 when the EEPROM was
detected, and writes `1 | (a << 2)` and waits for bit 1 when it was not, the word being computed
in 32 bits; it then makes `k + 1` reads and returns bits 31 to 16 of answer number `k`, whatever
the earlier answers were. -/
theorem C13_eeprom_read (cfg : Config) (d : Driver) (address k fuel mask shift : Nat)
    (hmode : (d._has_eeprom = true ∧ mask = 1 <<< 4 ∧ shift = 8) ∨
             (d._has_eeprom = false ∧ mask = 1 <<< 1 ∧ shift = 2))
    (hk : k < fuel)
    (hbefore : ∀ j, j < k → answer_has d mask j = false)
    (hdone : answer_has d mask k = true) :
    ∃ d2,
      e1000_eeprom_read cfg fuel d address =
        some (u32 (d.dev.rd (d.dev.nreads + k)) / 2 ^ 16, d2) ∧
      d2.dev.log = d.dev.log ++
        RegAccess.write cfg.E1000_REG_EEPROM ((1 ||| (address <<< shift)) % 2 ^ 32) ::
          reads_of d cfg.E1000_REG_EEPROM (k + 1) ∧
      (address < 2 ^ (32 - shift) →
        (1 ||| (address <<< shift)) % 2 ^ 32 = 1 ||| (address <<< shift)) ∧
      u32 (d.dev.rd (d.dev.nreads + k)) / 2 ^ 16 =
        (u32 (d.dev.rd (d.dev.nreads + k)) >>> 16) &&& 0xFFFF := by
  have hbits : u32 (d.dev.rd (d.dev.nreads + k)) / 2 ^ 16 =
      (u32 (d.dev.rd (d.dev.nreads + k)) >>> 16) &&& 0xFFFF := by
    have h1 : (u32 (d.dev.rd (d.dev.nreads + k)) >>> 16) &&& 0xFFFF =
        (u32 (d.dev.rd (d.dev.nreads + k)) >>> 16) % 2 ^ 16 :=
      Nat.and_pow_two_sub_one_eq_mod _ 16
    have h2 := u32_lt (d.dev.rd (d.dev.nreads + k))
    rw [h1, Nat.shiftRight_eq_div_pow]
    symm
    apply Nat.mod_eq_of_lt
    omega
  rcases hmode with ⟨he, hm, hs⟩ | ⟨he, hm, hs⟩
  · subst hm hs
    obtain ⟨d2, h1, h2, -⟩ := eeprom_poll_spec cfg (1 <<< 4) k fuel
      (e1000_write d cfg.E1000_REG_EEPROM (u32 (1 ||| u32 (u32 address <<< 8)))) hk
      (fun j hj => by rw [answer_has_after_write]; exact hbefore j hj)
      (by rw [answer_has_after_write]; exact hdone)
    have hnr : (e1000_write d cfg.E1000_REG_EEPROM
        (u32 (1 ||| u32 (u32 address <<< 8)))).dev.nreads = d.dev.nreads := by
      simp [e1000_write_eq]
    have hrd : (e1000_write d cfg.E1000_REG_EEPROM
        (u32 (1 ||| u32 (u32 address <<< 8)))).dev.rd = d.dev.rd := by
      simp [e1000_write_eq]
    have hlog : (e1000_write d cfg.E1000_REG_EEPROM
        (u32 (1 ||| u32 (u32 address <<< 8)))).dev.log =
        d.dev.log ++ [RegAccess.write cfg.E1000_REG_EEPROM
          (u32 (1 ||| u32 (u32 address <<< 8)))] := by
      simp [e1000_write_eq]
    rw [hnr, hrd] at h1
    rw [hlog, reads_of_after_write, command_word_8] at h2
    refine ⟨d2, ?_, ?_, command_word_small address 8 (Or.inl rfl), hbits⟩
    · unfold e1000_eeprom_read
      rw [if_pos he]
      simp only [h1]
      rw [upper_half _ (u32_lt _)]
    · rw [h2]
      simp
  · subst hm hs
    obtain ⟨d2, h1, h2, -⟩ := eeprom_poll_spec cfg (1 <<< 1) k fuel
      (e1000_write d cfg.E1000_REG_EEPROM (u32 (1 ||| u32 (u32 address <<< 2)))) hk
      (fun j hj => by rw [answer_has_after_write]; exact hbefore j hj)
      (by rw [answer_has_after_write]; exact hdone)
    have hnr : (e1000_write d cfg.E1000_REG_EEPROM
        (u32 (1 ||| u32 (u32 address <<< 2)))).dev.nreads = d.dev.nreads := by
      simp [e1000_write_eq]
    have hrd : (e1000_write d cfg.E1000_REG_EEPROM
        (u32 (1 ||| u32 (u32 address <<< 2)))).dev.rd = d.dev.rd := by
      simp [e1000_write_eq]
    have hlog : (e1000_write d cfg.E1000_REG_EEPROM
        (u32 (1 ||| u32 (u32 address <<< 2)))).dev.log =
        d.dev.log ++ [RegAccess.write cfg.E1000_REG_EEPROM
          (u32 (1 ||| u32 (u32 address <<< 2)))] := by
      simp [e1000_write_eq]
    rw [hnr, hrd] at h1
    rw [hlog, reads_of_after_write, command_word_2] at h2
    refine ⟨d2, ?_, ?_, command_word_small address 2 (Or.inr rfl), hbits⟩
    · unfold e1000_eeprom_read
      rw [if_neg (by simp [he])]
      simp only [h1]
      rw [upper_half _ (u32_lt _)]
    · rw [h2]
      simp

/-- C13 with no EEPROM detected, address 1, and a card that shows bit 1 from its third answer
on with `0xbeef` in the upper half: the word read is `0xbeef`, and the two earlier answers,
which carry other data and bit 4, are ignored. -/
theorem C13_eeprom_read_witness :
    example_old_eeprom._has_eeprom = false ∧
    answer_has example_old_eeprom (1 <<< 1) 2 = true ∧
    Option.map Prod.fst (e1000_eeprom_read (example_config 2 2) 5 example_old_eeprom 1) =
      some 0xbeef :=
  ⟨rfl, by rfl,
   (C13_eeprom_read (example_config 2 2) example_old_eeprom 1 2 5 (1 <<< 1) 2
      (Or.inr ⟨rfl, rfl, rfl⟩) (by decide) (by decide) (by rfl)).elim
     (fun _ h => (congrArg (Option.map Prod.fst) h.1).trans (by rfl))⟩

end E1000
